import Mathlib

/-!
# Splash `Image_Shmdata`: shared-memory frame reader and writer

A shallow embedding of `src/src/image_shmdata.cpp`.

Conventions of the embedding.

* C++ `int` values are `Int`; signed overflow (undefined in C++) is not modelled, products of
  geometry values are exact. Integer division is `Int.tdiv` (truncation toward zero).
* Bytes are `Fin 256`; a memory block is a `List Byte`; a null pointer is `none`.
* A function that may touch memory returns `Option`: `none` means that the C++ execution
  accesses memory outside the block it was given (undefined behaviour, no exit path is reached).
* `std::regex` with `regex_constants::extended` and `sscanf` follow the C++ and C standards.
* What the callback gets from its environment (clock, pattern construction outcome, the
  indeterminate bytes of an uninitialised local array) is a field of the delivery.
-/

namespace Splash

/-! ## Strings, pattern matches and scanning -/

/-- Characters of a `std::string`. -/
abbrev Str := List Char

/-- A byte (`unsigned char`). -/
abbrev Byte := Fin 256

/-- Value of `std::string(const char*)`: the characters before the first NUL. -/
def cString (s : Str) : Str :=
  s.takeWhile (fun c => c != Char.ofNat 0)

/-- Result of `regex_match(s, regex("(key)(.*)", extended))`: the whole of `s` is matched exactly
when `s` starts with `key` (in the POSIX grammars `.` matches every character but NUL). -/
def regexMatchFamily (key s : Str) : Bool :=
  key.isPrefixOf s

/-- Result of `regex_match(s, match, regex("(.*key)(.*)", extended))` followed by `match[2].str()`:
`none` when `key` does not occur in `s`, otherwise the text after the last occurrence of `key`
(the first group is greedy, so it ends at the rightmost occurrence). -/
def regexMatchKey (key : Str) : Str → Option Str
  | [] => if key.isEmpty then some [] else none
  | c :: cs =>
    match regexMatchKey key cs with
    | some rest => some rest
    | none => if key.isPrefixOf (c :: cs) then some ((c :: cs).drop key.length) else none

/-- C `isspace` in the "C" locale. -/
def isSpace (c : Char) : Bool :=
  c.toNat == 32 || (9 ≤ c.toNat && c.toNat ≤ 13)

/-- Value of a character as a digit (decimal or hexadecimal), if it is one. -/
def digitValue (c : Char) : Option Nat :=
  let n := c.toNat
  if 48 ≤ n ∧ n ≤ 57 then some (n - 48)
  else if 97 ≤ n ∧ n ≤ 102 then some (n - 87)
  else if 65 ≤ n ∧ n ≤ 70 then some (n - 55)
  else none

/-- Longest run of digits of base `base` at the head of the input: (number of digits, value). -/
def scanDigits (base : Nat) : Str → Nat → Nat → Nat × Nat
  | [], cnt, acc => (cnt, acc)
  | c :: cs, cnt, acc =>
    match digitValue c with
    | some v => if v < base then scanDigits base cs (cnt + 1) (acc * base + v) else (cnt, acc)
    | none => (cnt, acc)

/-- Unsigned part of a `%i` conversion: `0x`/`0X` hexadecimal, leading `0` octal, else decimal.
`none` is a matching failure (no digit). -/
def scanUnsigned (s : Str) : Option Nat :=
  match s with
  | '0' :: 'x' :: rest =>
    if (scanDigits 16 rest 0 0).1 = 0 then none else some (scanDigits 16 rest 0 0).2
  | '0' :: 'X' :: rest =>
    if (scanDigits 16 rest 0 0).1 = 0 then none else some (scanDigits 16 rest 0 0).2
  | '0' :: rest => some (scanDigits 8 rest 0 0).2
  | _ => if (scanDigits 10 s 0 0).1 = 0 then none else some (scanDigits 10 s 0 0).2

/-- The `%i` conversion of `sscanf`: leading white space, optional sign, then the digits. -/
def scanInt (s : Str) : Option Int :=
  match s.dropWhile isSpace with
  | '-' :: rest => (scanUnsigned rest).map (fun v => -(v : Int))
  | '+' :: rest => (scanUnsigned rest).map (fun v => (v : Int))
  | rest => (scanUnsigned rest).map (fun v => (v : Int))

/-- Effect of `sscanf(substr, ")%i", &field)`: the format starts with the ordinary character `)`,
which must match the first input character; `none` when nothing is assigned. -/
def sscanfInt (substr : Str) : Option Int :=
  match substr with
  | ')' :: rest => scanInt rest
  | _ => none

/-- The statement `sscanf(substr.c_str(), ")%i", &field)` on a field holding `old`. -/
def assignInt (old : Int) (substr : Str) : Int :=
  match sscanfInt substr with
  | some v => v
  | none => old

/-- Content of `char format[16]` after `sscanf(substr, ")%s", format)`, where `format0` is what
the uninitialised array held. Nothing is stored when `)` does not match or no token follows;
`none` when the token with its terminator does not fit in 16 bytes. -/
def sscanfToken (substr format0 : Str) : Option Str :=
  match substr with
  | ')' :: rest =>
    let tok := (rest.dropWhile isSpace).takeWhile (fun c => !isSpace c)
    if tok.isEmpty then some format0
    else if tok.length < 16 then some tok
    else none
  | _ => some format0

/-- Value of `strstr(hay, needle) != nullptr`. -/
def strstr : Str → Str → Bool
  | [], needle => needle.isEmpty
  | c :: cs, needle => needle.isPrefixOf (c :: cs) || strstr cs needle

/-- Value of `std::to_string(int)`. -/
def to_string (v : Int) : Str :=
  if v < 0 then '-' :: Nat.toDigits 10 v.natAbs else Nat.toDigits 10 v.natAbs

/-! ## Images -/

/-- The sample types of `oiio::TypeDesc` that an image can carry. -/
inductive TypeDesc where
  | UNKNOWN | UINT8 | INT8 | UINT16 | INT16 | UINT | INT | HALF | FLOAT | DOUBLE
  deriving DecidableEq, Repr

/-- Bytes per sample. -/
def TypeDesc.size : TypeDesc → Int
  | .UNKNOWN => 0
  | .UINT8 => 1
  | .INT8 => 1
  | .UINT16 => 2
  | .INT16 => 2
  | .UINT => 4
  | .INT => 4
  | .HALF => 2
  | .FLOAT => 4
  | .DOUBLE => 8

/-- The fields of `oiio::ImageSpec` the code reads. -/
structure ImageSpec where
  width : Int
  height : Int
  nchannels : Int
  format : TypeDesc
  deriving DecidableEq, Repr

/-- An `oiio::ImageBuf`: its spec and its local pixel storage (`none`: `localpixels()` is null). -/
structure ImageBuf where
  spec : ImageSpec
  localpixels : Option (List Byte)
  deriving DecidableEq, Repr

/-- A default-constructed `ImageBuf`. -/
def ImageBuf.empty : ImageBuf :=
  { spec := { width := 0, height := 0, nchannels := 0, format := .UNKNOWN }, localpixels := none }

/-- Number of bytes of the storage of an image of the given spec. -/
def ImageSpec.imageBytes (spec : ImageSpec) : Nat :=
  (spec.width * spec.height * spec.nchannels * spec.format.size).toNat

/-- The call `ImageBuf::reset(spec)`: new storage of the size of the spec (zero-filled here). -/
def ImageBuf.reset (spec : ImageSpec) : ImageBuf :=
  { spec := spec, localpixels := some (List.replicate spec.imageBytes 0) }

/-- The call `memcpy(dst, src, n)` where `n` is converted to `size_t`: a negative `n` becomes a
huge count. `none` when `dst` is null or the count exceeds either block. -/
def memcpy (dst : Option (List Byte)) (src : List Byte) (n : Int) : Option (List Byte) :=
  match dst with
  | none => none
  | some p =>
    if 0 ≤ n ∧ n.toNat ≤ src.length ∧ n.toNat ≤ p.length then
      some (src.take n.toNat ++ p.drop n.toNat)
    else none

/-- Read `base[i]` in a block. -/
def readByte (data : List Byte) (i : Int) : Option Byte :=
  if i < 0 then none else data[i.toNat]?

/-- Write `base[i] = v` in a block. -/
def writeByte (pixels : List Byte) (i : Int) (v : Byte) : Option (List Byte) :=
  if 0 ≤ i ∧ i.toNat < pixels.length then some (pixels.set i.toNat v) else none

/-- Modelled from the spec: the helper `clamp(value, min, max)` is declared outside the two source
files; the spec uses it as the saturation of a value to a closed range. -/
def clamp (v lo hi : Int) : Int :=
  if v < lo then lo else if hi < v then hi else v

/-- The cast `(unsigned char)` of an `int`. -/
def toUChar (v : Int) : Byte :=
  Fin.ofNat (v % 256).toNat

/-! ## The reader: `Image_Shmdata::onData` -/

/-- Value of the macro `SPLASH_SHMDATA_THREADS`. -/
def SPLASH_SHMDATA_THREADS : Nat := 16

/-- Reader side of an `Image_Shmdata` object. `freed` counts the calls of
`shmdata_any_reader_free` made so far; `timestamp` is what `updateTimestamp` last stored. -/
structure Reader where
  inputDataType : Str
  bpp : Int
  width : Int
  height : Int
  red : Int
  green : Int
  blue : Int
  channels : Int
  isYUV : Bool
  is420 : Bool
  readerBuffer : ImageBuf
  bufferImage : ImageBuf
  imageUpdated : Bool
  timestamp : Nat
  freed : Nat
  deriving DecidableEq, Repr

/-- A freshly constructed object. -/
def Reader.init : Reader :=
  { inputDataType := [], bpp := 0, width := 0, height := 0, red := 0, green := 0, blue := 0,
    channels := 0, isYUV := false, is420 := false, readerBuffer := ImageBuf.empty,
    bufferImage := ImageBuf.empty, imageUpdated := false, timestamp := 0, freed := 0 }

/-- One invocation of the callback: the arguments `type_description` and `data`, and what the
invocation takes from its environment: whether constructing the patterns throws `regex_error`,
the indeterminate content of the local `char format[16]`, and the clock read by
`updateTimestamp`. The arguments `data_size` and `timestamp` are not used by the code. -/
structure Delivery where
  type_description : Str
  data : List Byte
  regexError : Bool
  format0 : Str
  now : Nat
  deriving DecidableEq, Repr

/-- The local `string dataType(type_description)`. -/
def Delivery.dataType (d : Delivery) : Str :=
  cString d.type_description

/-- The pixel descriptor held by the reader. -/
structure Descriptor where
  bpp : Int
  width : Int
  height : Int
  red : Int
  green : Int
  blue : Int
  channels : Int
  isYUV : Bool
  is420 : Bool
  deriving DecidableEq, Repr

/-- Descriptor fields of a reader. -/
def Reader.descriptor (ctx : Reader) : Descriptor :=
  { bpp := ctx.bpp, width := ctx.width, height := ctx.height, red := ctx.red, green := ctx.green,
    blue := ctx.blue, channels := ctx.channels, isYUV := ctx.isYUV, is420 := ctx.is420 }

/-- The descriptor with every field cleared. -/
def Descriptor.zero : Descriptor :=
  { bpp := 0, width := 0, height := 0, red := 0, green := 0, blue := 0, channels := 0,
    isYUV := false, is420 := false }

/-- The test of line 222: width, height, bpp and channel count are all non-zero. -/
def Reader.usable (ctx : Reader) : Bool :=
  ctx.width != 0 && ctx.height != 0 && ctx.bpp != 0 && ctx.channels != 0

/-- What a reader holds besides the descriptor, the last seen string and the release count. -/
def Reader.frameSide (ctx : Reader) : ImageBuf × ImageBuf × Bool × Nat :=
  (ctx.readerBuffer, ctx.bufferImage, ctx.imageUpdated, ctx.timestamp)

/-- The call `shmdata_any_reader_free(shmbuf)`. -/
def shmdata_any_reader_free (ctx : Reader) : Reader :=
  { ctx with freed := ctx.freed + 1 }

/-- Lines 129-137: the descriptor is cleared. -/
def clearDescriptor (ctx : Reader) : Reader :=
  { ctx with bpp := 0, width := 0, height := 0, red := 0, green := 0, blue := 0, channels := 0,
             isYUV := false, is420 := false }

/-- Literal text of the pattern `regRgb`, `(video/x-raw-rgb)(.*)`. -/
def regRgb : Str := "video/x-raw-rgb".toList

/-- Literal text of the pattern `regYUV`, `(video/x-raw-yuv)(.*)`. -/
def regYUV : Str := "video/x-raw-yuv".toList

/-- Literal text of the first group of `regFormatYUV`, `(.*format=\(fourcc\))(.*)`. -/
def regFormatYUV : Str := "format=(fourcc)".toList

/-- Literal text of the first group of `regBpp`, `(.*bpp=\(int\))(.*)`. -/
def regBpp : Str := "bpp=(int)".toList

/-- Literal text of the first group of `regWidth`, `(.*width=\(int\))(.*)`. -/
def regWidth : Str := "width=(int)".toList

/-- Literal text of the first group of `regHeight`, `(.*height=\(int\))(.*)`. -/
def regHeight : Str := "height=(int)".toList

/-- Literal text of the first group of `regRed`, `(.*red_mask=\(int\))(.*)`. -/
def regRed : Str := "red_mask=(int)".toList

/-- Literal text of the first group of `regBlue`, `(.*blue_mask=\(int\))(.*)`. -/
def regBlue : Str := "blue_mask=(int)".toList

/-- The tag searched in the scanned format token. -/
def tagI420 : Str := "I420".toList

/-- Lines 167-172: the bits per pixel. -/
def scanBpp (ctx : Reader) (dataType : Str) : Reader :=
  match regexMatchKey regBpp dataType with
  | some substr => { ctx with bpp := assignInt ctx.bpp substr }
  | none => ctx

/-- Lines 173-178: the width. -/
def scanWidth (ctx : Reader) (dataType : Str) : Reader :=
  match regexMatchKey regWidth dataType with
  | some substr => { ctx with width := assignInt ctx.width substr }
  | none => ctx

/-- Lines 179-184: the height. -/
def scanHeight (ctx : Reader) (dataType : Str) : Reader :=
  match regexMatchKey regHeight dataType with
  | some substr => { ctx with height := assignInt ctx.height substr }
  | none => ctx

/-- Lines 185-194: the red mask, or the YUV flag when the string has no red mask and is of the
YUV family. -/
def scanRed (ctx : Reader) (dataType : Str) : Reader :=
  match regexMatchKey regRed dataType with
  | some substr => { ctx with red := assignInt ctx.red substr }
  | none => if regexMatchFamily regYUV dataType then { ctx with isYUV := true } else ctx

/-- Lines 195-200: the blue mask. -/
def scanBlue (ctx : Reader) (dataType : Str) : Reader :=
  match regexMatchKey regBlue dataType with
  | some substr => { ctx with blue := assignInt ctx.blue substr }
  | none => ctx

/-- Lines 202-218: channel count, and for YUV the bits per pixel and the planar flag. -/
def deriveChannels (ctx : Reader) (dataType format0 : Str) : Option Reader :=
  if ctx.bpp = 24 then some { ctx with channels := 3 }
  else if ctx.isYUV then
    let ctx := { ctx with bpp := 12, channels := 3 }
    match regexMatchKey regFormatYUV dataType with
    | some substr =>
      match sscanfToken substr format0 with
      | some format => if strstr format tagI420 then some { ctx with is420 := true } else some ctx
      | none => none
    | none => some ctx
  else some ctx

/-- Lines 161-219: derivation of the descriptor from a changed capability string. -/
def parseCaps (ctx : Reader) (dataType format0 : Str) : Option Reader :=
  if regexMatchFamily regRgb dataType || regexMatchFamily regYUV dataType then
    let ctx := scanBpp ctx dataType
    let ctx := scanWidth ctx dataType
    let ctx := scanHeight ctx dataType
    let ctx := scanRed ctx dataType
    let ctx := scanBlue ctx dataType
    deriveChannels ctx dataType format0
  else some ctx

/-- The values `lo, lo+1, ...` below `hi`: the iterations of `for (int y = lo; y < hi; y++)`. -/
def rowsFrom (lo hi : Int) : List Int :=
  (List.range (hi - lo).toNat).map (fun (i : Nat) => lo + (i : Int))

/-- Rows of band `block`: from `height / 16 * block` up to `height / 16 * (block + 1)`. -/
def bandRows (height : Int) (block : Nat) : List Int :=
  rowsFrom (height.tdiv SPLASH_SHMDATA_THREADS * block)
    (height.tdiv SPLASH_SHMDATA_THREADS * (block + 1))

/-- The iterations of `for (int x = 0; x < width; x += 2)`: the even values below `width`, half
of `width` rounded up in number. -/
def pairColumns (width : Int) : List Int :=
  (List.range ((width + 1) / 2).toNat).map (fun (i : Nat) => 2 * (i : Int))

/-- Lines 261-263 (and 267-269): the three bytes of one output pixel. -/
def writePixel (width : Int) (pixels : List Byte) (row col yValue rPart gPart bPart : Int) :
    Option (List Byte) := do
  let p ← writeByte pixels ((row * width + col) * 3)
    (toUChar (clamp ((yValue + rPart).tdiv 32768) 0 255))
  let p ← writeByte p ((row * width + col) * 3 + 1)
    (toUChar (clamp ((yValue + gPart).tdiv 32768) 0 255))
  writeByte p ((row * width + col) * 3 + 2)
    (toUChar (clamp ((yValue + bPart).tdiv 32768) 0 255))

/-- Luma gain of lines 260 and 266. -/
def coefY : Int := 38142

/-- Weight of V in the red part, line 254. -/
def coefVtoR : Int := 52298

/-- Weight of U in the green part, line 255. -/
def coefUtoG : Int := 12846

/-- Weight of V in the green part, line 255. -/
def coefVtoG : Int := 36641

/-- Weight of U in the blue part, line 256. -/
def coefUtoB : Int := 66094

/-- Index of the chroma sample of pixel (x, y) in its plane, lines 251-252. -/
def chromaIndex (width y x : Int) : Int :=
  (y.tdiv 2) * (width.tdiv 2) + x.tdiv 2

/-- Lines 251-269: body of the inner loop, one pair of horizontally adjacent pixels. `Y` is
`data`, `U` is `data + width * height`, `V` is `data + width * height * 5 / 4`. -/
def convertPair (width height : Int) (data pixels : List Byte) (y x : Int) :
    Option (List Byte) := do
  let u ← readByte data (width * height + chromaIndex width y x)
  let v ← readByte data ((width * height * 5).tdiv 4 + chromaIndex width y x)
  let uValue : Int := (u.val : Int) - 128
  let vValue : Int := (v.val : Int) - 128
  let rPart := coefVtoR * vValue
  let gPart := -coefUtoG * uValue - coefVtoG * vValue
  let bPart := coefUtoB * uValue
  let col := x
  let row := y
  let y0 ← readByte data (row * width + col)
  let p ← writePixel width pixels row col ((y0.val : Int) * coefY) rPart gPart bPart
  let col := col + 1
  let y1 ← readByte data (row * width + col)
  writePixel width p row col ((y1.val : Int) * coefY) rPart gPart bPart

/-- Line 249: one row. -/
def convertRow (width height : Int) (data pixels : List Byte) (y : Int) : Option (List Byte) :=
  (pairColumns width).foldlM (fun p x => convertPair width height data p y x) pixels

/-- Lines 248-271: the unit of work of band `block`. -/
def convertBand (width height : Int) (data pixels : List Byte) (block : Nat) :
    Option (List Byte) :=
  (bandRows height block).foldlM (fun p y => convertRow width height data p y) pixels

/-- Lines 245-274: the bands, run here one after the other in the order of `block`. -/
def convert420 (width height : Int) (data pixels : List Byte) : Option (List Byte) :=
  (List.range SPLASH_SHMDATA_THREADS).foldlM
    (fun p block => convertBand width height data p block) pixels

/-- Lines 282-288: exchange of the two buffers, new-frame flag, time stamp, release. The method
`updateTimestamp` is declared outside these sources; it is taken to store the clock reading. -/
def completeFrame (ctx : Reader) (now : Nat) : Reader :=
  shmdata_any_reader_free
    { ctx with bufferImage := ctx.readerBuffer, readerBuffer := ctx.bufferImage,
               imageUpdated := true, timestamp := now }

/-- Lines 224-230: the producer-side buffer is reset when its geometry differs. -/
def resizeReaderBuffer (ctx : Reader) : Reader :=
  if ctx.readerBuffer.spec.width ≠ ctx.width ∨ ctx.readerBuffer.spec.height ≠ ctx.height
      ∨ ctx.readerBuffer.spec.nchannels ≠ ctx.channels then
    { ctx with
      readerBuffer := ImageBuf.reset (ImageSpec.mk ctx.width ctx.height ctx.channels .UINT8) }
  else ctx

/-- Lines 222-290: what the callback does with the frame once the descriptor is settled. A null
`pixels` is the empty block: every write to it is out of bounds. -/
def onFrame (ctx : Reader) (d : Delivery) : Option Reader :=
  if ctx.usable then
    let ctx := resizeReaderBuffer ctx
    if !ctx.is420 && (ctx.channels == 3 || ctx.channels == 4) then
      match memcpy ctx.readerBuffer.localpixels d.data (ctx.width * ctx.height * ctx.channels) with
      | some px =>
        some (completeFrame
          { ctx with readerBuffer := { ctx.readerBuffer with localpixels := some px } } d.now)
      | none => none
    else if ctx.is420 then
      match convert420 ctx.width ctx.height d.data (ctx.readerBuffer.localpixels.getD []) with
      | some px =>
        some (completeFrame
          { ctx with readerBuffer :=
              { ctx.readerBuffer with
                localpixels := ctx.readerBuffer.localpixels.map (fun _ => px) } } d.now)
      | none => none
    else some (shmdata_any_reader_free ctx)
  else some (shmdata_any_reader_free ctx)

/-- How the first block of the callback (lines 124-220) ends. -/
inductive Parsed where
  /-- The catch clause released the handle and returned. -/
  | returned (ctx : Reader)
  /-- Control reaches line 222. -/
  | proceed (ctx : Reader)
  deriving DecidableEq, Repr

/-- Lines 124-220: a capability string equal to the last seen one is skipped; a changed one is
recorded, the descriptor is cleared and derived again. -/
def updateDescriptor (ctx : Reader) (d : Delivery) : Option Parsed :=
  if d.dataType ≠ ctx.inputDataType then
    let ctx := clearDescriptor { ctx with inputDataType := d.dataType }
    if d.regexError then some (.returned (shmdata_any_reader_free ctx))
    else
      match parseCaps ctx d.dataType d.format0 with
      | some ctx => some (.proceed ctx)
      | none => none
  else some (.proceed ctx)

/-- The callback `Image_Shmdata::onData`, lines 117-291. -/
def onData (ctx : Reader) (d : Delivery) : Option Reader :=
  match updateDescriptor ctx d with
  | some (.returned ctx) => some ctx
  | some (.proceed ctx) => onFrame ctx d
  | none => none

/-- Reader states the program can be in: the fresh object, and what a returning callback leaves
from such a state. -/
inductive Reachable : Reader → Prop where
  | init : Reachable Reader.init
  | step {ctx ctx' : Reader} (d : Delivery) :
      Reachable ctx → onData ctx d = some ctx' → Reachable ctx'

/-- A reader buffer is either default-constructed or holds 8-bit storage of the size of its
spec. -/
def ImageBuf.Sized (b : ImageBuf) : Prop :=
  b = ImageBuf.empty
    ∨ ∃ px, b.localpixels = some px ∧ px.length = b.spec.imageBytes ∧ b.spec.format = .UINT8

/-! ## The writer: `Image_Shmdata::write` and `Image_Shmdata::initShmWriter` -/

/-- Calls made on the shmdata writer transport, in the order they are made. -/
inductive WriterCall where
  | close
  | init
  | set_data_type (dataType : Str)
  | set_path (path : Str) (ok : Bool)
  | start
  | push_data (bytes : List Byte) (size : Int) (currentTime startTime : Nat)
  deriving DecidableEq, Repr

/-- Writer side of an `Image_Shmdata` object. `writer` tells whether `_writer` is non-null;
`calls` records the calls made on the transport so far. -/
structure Writer where
  writer : Bool
  filename : Str
  writerSpec : ImageSpec
  writerInputSize : Int
  writerStartTime : Nat
  writerBuffer : ImageBuf
  calls : List WriterCall
  deriving DecidableEq, Repr

/-- What one `write` takes from its environment: whether `shmdata_any_writer_set_path`
succeeds, and the clock as read in `initShmWriter` and in `write`. -/
structure WriterEnv where
  setPathOk : Bool
  initTime : Nat
  currentTime : Nat
  deriving DecidableEq, Repr

/-- Lines 76-91: the head of the data type and the bytes per pixel of a supported format. -/
def selectDataType (spec : ImageSpec) : Option (Str × Int) :=
  if spec.format = .UINT8 ∧ spec.nchannels = 4 then
    some ("video/x-raw-rgb,bpp=32,endianness=4321,depth=32,red_mask=-16777216,".toList
            ++ "green_mask=16711680,blue_mask=65280,".toList, 4)
  else if spec.format = .UINT16 ∧ spec.nchannels = 1 then
    some ("video/x-raw-gray,bpp=16,endianness=4321,depth=16,".toList, 2)
  else none

/-- Lines 93-95: the data type string completed with the geometry and the frame rate. -/
def completeDataType (head : Str) (spec : ImageSpec) : Str :=
  head ++ ("width=".toList ++ to_string spec.width ++ ",".toList)
    ++ ("height=".toList ++ to_string spec.height ++ ",".toList)
    ++ "framerate=60/1".toList

/-- The method `Image_Shmdata::initShmWriter`, lines 69-114. -/
def initShmWriter (ctx : Writer) (spec : ImageSpec) (filename : Str) (env : WriterEnv) :
    Bool × Writer :=
  let ctx := if ctx.writer then { ctx with calls := ctx.calls ++ [WriterCall.close] } else ctx
  let ctx := { ctx with writer := true, calls := ctx.calls ++ [WriterCall.init] }
  match selectDataType spec with
  | none => (false, { ctx with writerInputSize := 0 })
  | some (head, bytesPerPixel) =>
    let ctx := { ctx with writerInputSize := bytesPerPixel }
    let dataType := completeDataType head spec
    let ctx := { ctx with writerInputSize := ctx.writerInputSize * (spec.width * spec.height) }
    let ctx := { ctx with calls := ctx.calls ++ [WriterCall.set_data_type dataType] }
    let ctx := { ctx with calls := ctx.calls ++ [WriterCall.set_path filename env.setPathOk] }
    if !env.setPathOk then (false, { ctx with filename := [] })
    else
      let ctx := { ctx with filename := filename, writerSpec := spec }
      let ctx := { ctx with calls := ctx.calls ++ [WriterCall.start] }
      let ctx := { ctx with writerStartTime := env.initTime }
      (true, { ctx with writerBuffer := ImageBuf.reset ctx.writerSpec })

/-- The test of line 58: the frame geometry, the handle or the path has changed. -/
def needsInit (ctx : Writer) (spec : ImageSpec) (filename : Str) : Bool :=
  spec.width != ctx.writerSpec.width || spec.height != ctx.writerSpec.height
    || spec.nchannels != ctx.writerSpec.nchannels || !ctx.writer || ctx.filename != filename

/-- Lines 62-65: copy into the writer buffer and publication. -/
def pushFrame (ctx : Writer) (src : List Byte) (env : WriterEnv) : Option (Bool × Writer) :=
  match memcpy ctx.writerBuffer.localpixels src ctx.writerInputSize with
  | some px =>
    some (true,
      { ctx with
        writerBuffer := { ctx.writerBuffer with localpixels := some px },
        calls := ctx.calls ++
          [WriterCall.push_data (px.take ctx.writerInputSize.toNat) ctx.writerInputSize env.currentTime
            ctx.writerStartTime] })
  | none => none

/-- The method `Image_Shmdata::write`, lines 51-66: the returned flag and the new state. -/
def write (ctx : Writer) (img : ImageBuf) (filename : Str) (env : WriterEnv) :
    Option (Bool × Writer) :=
  match img.localpixels with
  | none => some (false, ctx)
  | some src =>
    if needsInit ctx img.spec filename then
      match initShmWriter ctx img.spec filename env with
      | (false, ctx) => some (false, ctx)
      | (true, ctx) => pushFrame ctx src env
    else pushFrame ctx src env

/-- Number of renegotiations recorded in a call list: every `initShmWriter` opens exactly one
transport handle. -/
def renegotiations (calls : List WriterCall) : Nat :=
  calls.count WriterCall.init

/-- The publications recorded in a call list. -/
def published (calls : List WriterCall) : List WriterCall :=
  calls.filter fun c =>
    match c with
    | WriterCall.push_data _ _ _ _ => true
    | _ => false

/-- The two formats the writer publishes: four 8-bit channels, or one 16-bit channel. -/
def supportedFormat (spec : ImageSpec) : Prop :=
  (spec.format = .UINT8 ∧ spec.nchannels = 4) ∨ (spec.format = .UINT16 ∧ spec.nchannels = 1)

/-- The masked-RGB encoding string of the external interface, numbers in decimal. -/
def rgbEncoding (w h : Int) : Str :=
  "video/x-raw-rgb,bpp=32,endianness=4321,depth=32,red_mask=-16777216,".toList
    ++ "green_mask=16711680,blue_mask=65280,width=".toList ++ (toString w).toList
    ++ ",height=".toList ++ (toString h).toList ++ ",framerate=60/1".toList

/-- The grayscale encoding string of the external interface, numbers in decimal. -/
def grayEncoding (w h : Int) : Str :=
  "video/x-raw-gray,bpp=16,endianness=4321,depth=16,width=".toList ++ (toString w).toList
    ++ ",height=".toList ++ (toString h).toList ++ ",framerate=60/1".toList

/-- The transport calls of one renegotiation that reaches `set_path`. -/
def renegotiationCalls (wasOpen : Bool) (dataType filename : Str) (ok : Bool) :
    List WriterCall :=
  (if wasOpen then [WriterCall.close] else [])
    ++ [WriterCall.init, WriterCall.set_data_type dataType, WriterCall.set_path filename ok]
    ++ (if ok then [WriterCall.start] else [])

/-- Value of a C++ `int` computation whose exact result is `z`: reduction modulo 2^32 into the
signed 32-bit range. -/
def wrap32 (z : Int) : Int :=
  (z + 2147483648) % 4294967296 - 2147483648

/-- The triple (width, height, channel count) of the descriptor. -/
def Reader.triple (ctx : Reader) : Int × Int × Int :=
  (ctx.width, ctx.height, ctx.channels)

/-- The triple (width, height, channel count) of a buffer. -/
def ImageBuf.triple (b : ImageBuf) : Int × Int × Int :=
  (b.spec.width, b.spec.height, b.spec.nchannels)

/-- Whether a delivery executes the reset of line 229: control reaches line 222 with a usable
descriptor and the test of line 226 holds. -/
def resetsBuffer (ctx : Reader) (d : Delivery) : Bool :=
  match updateDescriptor ctx d with
  | some (.proceed ρ) =>
    ρ.usable && decide (ρ.readerBuffer.spec.width ≠ ρ.width
      ∨ ρ.readerBuffer.spec.height ≠ ρ.height ∨ ρ.readerBuffer.spec.nchannels ≠ ρ.channels)
  | _ => false

/-- Whether a delivery takes the packed copy or the planar conversion, the two branches that
lead to the exchange of the buffers at lines 282-285. -/
def completesFrame (ctx : Reader) (d : Delivery) : Bool :=
  match updateDescriptor ctx d with
  | some (.proceed ρ) =>
    ρ.usable && ((!ρ.is420 && (ρ.channels == 3 || ρ.channels == 4)) || ρ.is420)
  | _ => false

/-- Whether the second block ends in its last branch (lines 276-280): a usable descriptor that
is neither packed with 3 or 4 channels nor planar. -/
def unsupportedLayout (ρ : Reader) : Bool :=
  ρ.usable && !(!ρ.is420 && (ρ.channels == 3 || ρ.channels == 4)) && !ρ.is420

/-! ## Inputs used in the evaluations -/

/-- The RGB capability string of the wire format for a 2 x 1 frame. -/
def capsRgb24 : Str :=
  ("video/x-raw-rgb,bpp=(int)24,width=(int)2,height=(int)1,red_mask=(int)16711680,"
    ++ "green_mask=(int)65280,blue_mask=(int)255").toList

/-- A capability string of a family the reader does not know. -/
def capsAudio : Str := "audio/x-raw-int".toList

/-- A capability string that the parser reads as planar 4:2:0 of 2 x 2 pixels. -/
def capsI420 : Str :=
  "video/x-raw-yuv, width=(int))2, height=(int))2, format=(fourcc))I420".toList

/-- A planar 4:2:0 frame of 2 x 2 pixels: luma 255, both chroma samples 128. -/
def frameI420 : List Byte := [255, 255, 255, 255, 128, 128]

/-- A capability string that the parser reads as packed RGB of 2 x 1 pixels. -/
def capsPacked : Str :=
  "video/x-raw-rgb,bpp=(int))24,width=(int))2,height=(int))1".toList

/-- A capability string that the parser reads as packed RGB of width -2 and height 1. -/
def capsNegative : Str :=
  "video/x-raw-rgb,bpp=(int))24,width=(int))-2,height=(int))1".toList

/-- A reader that has completed one packed 2 x 1 frame. -/
def readerPacked : Reader :=
  { inputDataType := capsPacked, bpp := 24, width := 2, height := 1, red := 0, green := 0,
    blue := 0, channels := 3, isYUV := false, is420 := false,
    readerBuffer := ImageBuf.empty,
    bufferImage := { spec := { width := 2, height := 1, nchannels := 3, format := .UINT8 },
                     localpixels := some [1, 2, 3, 4, 5, 6] },
    imageUpdated := true, timestamp := 1, freed := 1 }

/-- A delivery of the given data under the given capability string, patterns constructed. -/
def deliver (caps : Str) (data : List Byte) : Delivery :=
  { type_description := caps, data := data, regexError := false, format0 := [], now := 2 }

/-- A capability string that the parser reads as planar 4:2:0 of 2 x 16 pixels. -/
def capsI420Tall : Str :=
  "video/x-raw-yuv, width=(int))2, height=(int))16, format=(fourcc))I420".toList

/-- A freshly constructed writer. -/
def Writer.init : Writer :=
  { writer := false, filename := [], writerSpec := ImageBuf.empty.spec, writerInputSize := 0,
    writerStartTime := 0, writerBuffer := ImageBuf.empty, calls := [] }

/-- An environment in which the transport opens. -/
def envOpen : WriterEnv :=
  { setPathOk := true, initTime := 1, currentTime := 2 }

/-- An environment in which the transport does not open. -/
def envClosed : WriterEnv :=
  { setPathOk := false, initTime := 1, currentTime := 2 }

/-- A YUV capability string whose format token `NI420` is not the planar tag but contains it. -/
def capsTagInside : Str :=
  "video/x-raw-yuv,format=(fourcc))NI420".toList

/-- A YUV capability string of the wire format, the planar tag right after the type token. -/
def capsI420Wire : Str :=
  "video/x-raw-yuv,format=(fourcc)I420".toList

/-- A YUV capability string of the wire format whose tag is `YV12`. -/
def capsYV12Wire : Str :=
  "video/x-raw-yuv,format=(fourcc)YV12".toList

/-- A 2 x 1 frame of four 8-bit channels. -/
def frameRgba : ImageBuf :=
  { spec := { width := 2, height := 1, nchannels := 4, format := .UINT8 },
    localpixels := some [1, 2, 3, 4, 5, 6, 7, 8] }

/-- A 2 x 1 frame of four signed 8-bit channels. -/
def frameInt8 : ImageBuf :=
  { spec := { width := 2, height := 1, nchannels := 4, format := .INT8 },
    localpixels := some [11, 12, 13, 14, 15, 16, 17, 18] }

/-- A 1 x 1 frame of three 8-bit channels. -/
def frameRgb : ImageBuf :=
  { spec := { width := 1, height := 1, nchannels := 3, format := .UINT8 },
    localpixels := some [21, 22, 23] }

/-- A 1 x 2 frame of one 16-bit channel. -/
def frameGray16 : ImageBuf :=
  { spec := { width := 1, height := 2, nchannels := 1, format := .UINT16 },
    localpixels := some [31, 32, 33, 34] }

/-- A second 2 x 1 frame of four 8-bit channels, with other pixel values. -/
def frameRgbaNext : ImageBuf :=
  { spec := { width := 2, height := 1, nchannels := 4, format := .UINT8 },
    localpixels := some [8, 7, 6, 5, 4, 3, 2, 1] }

/-- The path used in the evaluations. -/
def pathSplash : Str := "/tmp/splash".toList

/-- A 2 x 1 frame of four 8-bit channels without local pixel storage. -/
def frameNoPixels : ImageBuf :=
  { spec := { width := 2, height := 1, nchannels := 4, format := .UINT8 }, localpixels := none }

/-! ## Lemmas on the callback -/

theorem regexMatchFamily_eq_true_iff (key s : Str) :
    regexMatchFamily key s = true ↔ key <+: s := by
  simp [regexMatchFamily]

theorem usable_congr {a b : Reader} (h : a.descriptor = b.descriptor) : a.usable = b.usable := by
  simp only [Reader.descriptor, Descriptor.mk.injEq] at h
  simp [Reader.usable, h]

/-- The scans of the five keys touch descriptor fields only. -/
theorem scans_keep (c : Reader) (s : Str) :
    (scanBlue (scanRed (scanHeight (scanWidth (scanBpp c s) s) s) s) s).inputDataType
        = c.inputDataType
    ∧ (scanBlue (scanRed (scanHeight (scanWidth (scanBpp c s) s) s) s) s).frameSide
        = c.frameSide
    ∧ (scanBlue (scanRed (scanHeight (scanWidth (scanBpp c s) s) s) s) s).freed
        = c.freed := by
  simp only [scanBlue, scanRed, scanHeight, scanWidth, scanBpp, Reader.frameSide]
  repeat' split
  all_goals simp

/-- The derivation of the channel count touches descriptor fields only. -/
theorem deriveChannels_keeps {c c' : Reader} {s f : Str} (h : deriveChannels c s f = some c') :
    c'.inputDataType = c.inputDataType ∧ c'.frameSide = c.frameSide ∧ c'.freed = c.freed := by
  unfold deriveChannels at h
  repeat' split at h
  all_goals first
    | (simp only [Option.some.injEq] at h; subst h; simp [Reader.frameSide])
    | (cases h)

/-- The derivation of the descriptor touches descriptor fields only. -/
theorem parseCaps_keeps {ctx ctx' : Reader} {s f : Str} (h : parseCaps ctx s f = some ctx') :
    ctx'.inputDataType = ctx.inputDataType ∧ ctx'.frameSide = ctx.frameSide
      ∧ ctx'.freed = ctx.freed := by
  unfold parseCaps at h
  split at h
  · obtain ⟨k1, k2, k3⟩ := scans_keep ctx s
    obtain ⟨j1, j2, j3⟩ := deriveChannels_keeps h
    exact ⟨j1.trans k1, j2.trans k2, j3.trans k3⟩
  · simp only [Option.some.injEq] at h
    subst h
    simp

/-- A string of neither family leaves the reader as it is. -/
theorem parseCaps_unknown_family (ctx : Reader) (s f : Str)
    (hrgb : ¬ regRgb <+: s) (hyuv : ¬ regYUV <+: s) : parseCaps ctx s f = some ctx := by
  have h1 : regexMatchFamily regRgb s = false := by
    cases h : regexMatchFamily regRgb s with
    | false => rfl
    | true => exact absurd ((regexMatchFamily_eq_true_iff _ _).1 h) hrgb
  have h2 : regexMatchFamily regYUV s = false := by
    cases h : regexMatchFamily regYUV s with
    | false => rfl
    | true => exact absurd ((regexMatchFamily_eq_true_iff _ _).1 h) hyuv
  simp [parseCaps, h1, h2]

/-- The second block of the callback keeps the descriptor and the last seen string, and
releases the handle once. -/
theorem onFrame_keeps {ctx ctx' : Reader} {d : Delivery} (h : onFrame ctx d = some ctx') :
    ctx'.descriptor = ctx.descriptor ∧ ctx'.inputDataType = ctx.inputDataType
      ∧ ctx'.freed = ctx.freed + 1 := by
  unfold onFrame at h
  simp only [resizeReaderBuffer] at h
  repeat' split at h
  all_goals first
    | (simp only [Option.some.injEq] at h; subst h
       simp [completeFrame, shmdata_any_reader_free, Reader.descriptor])
    | (cases h)

/-- With a descriptor that is not usable the second block only releases the handle. -/
theorem onFrame_not_usable {ctx : Reader} (d : Delivery) (h : ctx.usable = false) :
    onFrame ctx d = some (shmdata_any_reader_free ctx) := by
  simp [onFrame, h]

/-- The three ways the first block can end. -/
theorem updateDescriptor_cases (ctx : Reader) (d : Delivery) :
    (d.dataType = ctx.inputDataType ∧ updateDescriptor ctx d = some (.proceed ctx))
    ∨ (d.dataType ≠ ctx.inputDataType ∧ d.regexError = true ∧
        updateDescriptor ctx d = some (.returned (shmdata_any_reader_free
          (clearDescriptor { ctx with inputDataType := d.dataType }))))
    ∨ (d.dataType ≠ ctx.inputDataType ∧ d.regexError = false ∧
        ((parseCaps (clearDescriptor { ctx with inputDataType := d.dataType })
            d.dataType d.format0 = none ∧ updateDescriptor ctx d = none)
          ∨ ∃ ρ, parseCaps (clearDescriptor { ctx with inputDataType := d.dataType })
            d.dataType d.format0 = some ρ ∧ updateDescriptor ctx d = some (.proceed ρ))) := by
  by_cases hs : d.dataType = ctx.inputDataType
  · left
    exact ⟨hs, by simp [updateDescriptor, hs]⟩
  · right
    cases he : d.regexError
    · right
      refine ⟨hs, rfl, ?_⟩
      cases hp : parseCaps (clearDescriptor { ctx with inputDataType := d.dataType })
          d.dataType d.format0 with
      | none => left; exact ⟨rfl, by simp [updateDescriptor, hs, he, hp]⟩
      | some ρ => right; exact ⟨ρ, rfl, by simp [updateDescriptor, hs, he, hp]⟩
    · left
      exact ⟨hs, rfl, by simp [updateDescriptor, hs, he]⟩

/-- The callback, when it returns, has recorded the delivered string and released once. -/
theorem onData_keeps {ctx ctx' : Reader} {d : Delivery} (h : onData ctx d = some ctx') :
    ctx'.inputDataType = d.dataType ∧ ctx'.freed = ctx.freed + 1 := by
  unfold onData at h
  rcases updateDescriptor_cases ctx d with ⟨hs, hu⟩ | ⟨_, _, hu⟩ | ⟨_, _, ⟨_, hu⟩ | ⟨ρ, hp, hu⟩⟩
  · rw [hu] at h
    obtain ⟨_, h2, h3⟩ := onFrame_keeps h
    exact ⟨by rw [h2, hs], h3⟩
  · rw [hu] at h
    simp only [Option.some.injEq] at h
    subst h
    simp [shmdata_any_reader_free, clearDescriptor]
  · rw [hu] at h
    cases h
  · rw [hu] at h
    obtain ⟨_, h2, h3⟩ := onFrame_keeps h
    obtain ⟨k1, _, k3⟩ := parseCaps_keeps hp
    refine ⟨by rw [h2, k1]; simp [clearDescriptor], by rw [h3, k3]; simp [clearDescriptor]⟩

/-- When the first block hands over to the second, only the descriptor and the last seen string
may have changed. -/
theorem updateDescriptor_proceed {ctx ρ : Reader} {d : Delivery}
    (h : updateDescriptor ctx d = some (.proceed ρ)) :
    ρ.frameSide = ctx.frameSide ∧ ρ.freed = ctx.freed ∧ ρ.inputDataType = d.dataType := by
  rcases updateDescriptor_cases ctx d with ⟨hs, hx⟩ | ⟨_, _, hx⟩ | ⟨_, _, ⟨_, hx⟩ | ⟨σ, hp, hx⟩⟩
  · rw [hx] at h
    simp only [Option.some.injEq, Parsed.proceed.injEq] at h
    subst h
    exact ⟨rfl, rfl, hs.symm⟩
  · rw [hx] at h
    simp at h
  · rw [hx] at h
    cases h
  · rw [hx] at h
    simp only [Option.some.injEq, Parsed.proceed.injEq] at h
    subst h
    obtain ⟨k1, k2, k3⟩ := parseCaps_keeps hp
    exact ⟨k2.trans (by simp [clearDescriptor, Reader.frameSide]),
      k3.trans (by simp [clearDescriptor]), k1.trans (by simp [clearDescriptor])⟩

theorem writeByte_length {p q : List Byte} {i : Int} {v : Byte}
    (h : writeByte p i v = some q) : q.length = p.length := by
  unfold writeByte at h
  split at h
  · simp only [Option.some.injEq] at h
    subst h
    simp
  · cases h

theorem writePixel_length {w : Int} {p q : List Byte} {row col yv r g b : Int}
    (h : writePixel w p row col yv r g b = some q) : q.length = p.length := by
  simp only [writePixel, Option.bind_eq_bind, Option.bind_eq_some] at h
  obtain ⟨p1, h1, p2, h2, h3⟩ := h
  rw [writeByte_length h3, writeByte_length h2, writeByte_length h1]

theorem convertPair_length {w h : Int} {data p q : List Byte} {y x : Int}
    (hq : convertPair w h data p y x = some q) : q.length = p.length := by
  simp only [convertPair, Option.bind_eq_bind, Option.bind_eq_some] at hq
  obtain ⟨_, _, _, _, _, _, p1, h1, _, _, h2⟩ := hq
  rw [writePixel_length h2, writePixel_length h1]

/-- A fold of length-preserving fallible steps preserves the length. -/
theorem foldlM_length {α : Type} (f : List Byte → α → Option (List Byte))
    (hf : ∀ p a q, f p a = some q → q.length = p.length) :
    ∀ (l : List α) (p q : List Byte), l.foldlM f p = some q → q.length = p.length := by
  intro l
  induction l with
  | nil =>
    intro p q h
    simp only [List.foldlM, pure, Option.some.injEq] at h
    rw [h]
  | cons a l ih =>
    intro p q h
    simp only [List.foldlM, bind, Option.bind_eq_some] at h
    obtain ⟨p1, h1, h2⟩ := h
    rw [ih p1 q h2, hf p a p1 h1]

/-- The conversion keeps the size of the output block. -/
theorem convert420_length {w h : Int} {data p q : List Byte}
    (hq : convert420 w h data p = some q) : q.length = p.length := by
  refine foldlM_length _ ?_ _ p q hq
  intro p1 block q1 hb
  refine foldlM_length _ ?_ _ p1 q1 hb
  intro p2 y q2 hr
  refine foldlM_length _ ?_ _ p2 q2 hr
  intro p3 x q3 hp
  exact convertPair_length hp

theorem resizeReaderBuffer_sized {ctx : Reader} (h : ctx.readerBuffer.Sized) :
    (resizeReaderBuffer ctx).readerBuffer.Sized
      ∧ (resizeReaderBuffer ctx).bufferImage = ctx.bufferImage := by
  unfold resizeReaderBuffer
  split
  · exact ⟨Or.inr ⟨_, rfl, by simp [ImageBuf.reset], rfl⟩, rfl⟩
  · exact ⟨h, rfl⟩

/-- The second block keeps both buffers sized. -/
theorem onFrame_sized {ctx ctx' : Reader} {d : Delivery}
    (hr : ctx.readerBuffer.Sized) (hb : ctx.bufferImage.Sized) (h : onFrame ctx d = some ctx') :
    ctx'.readerBuffer.Sized ∧ ctx'.bufferImage.Sized := by
  obtain ⟨hr', hb'⟩ := resizeReaderBuffer_sized hr
  rw [← hb'] at hb
  unfold onFrame at h
  split at h
  · simp only at h
    split at h
    · split at h
      · rename_i px hm
        simp only [Option.some.injEq] at h
        subst h
        refine ⟨by simpa [completeFrame, shmdata_any_reader_free] using hb, ?_⟩
        simp only [completeFrame, shmdata_any_reader_free]
        rcases hr' with he | ⟨p, hp, hlen, hfmt⟩
        · rw [he] at hm
          simp [memcpy, ImageBuf.empty] at hm
        · refine Or.inr ⟨px, rfl, ?_, hfmt⟩
          rw [hp] at hm
          simp only [memcpy] at hm
          split at hm
          · rename_i hc
            simp only [Option.some.injEq] at hm
            subst hm
            simp only [List.length_append, List.length_take, List.length_drop]
            omega
          · cases hm
      · cases h
    · split at h
      · split at h
        · rename_i px hm
          simp only [Option.some.injEq] at h
          subst h
          refine ⟨by simpa [completeFrame, shmdata_any_reader_free] using hb, ?_⟩
          simp only [completeFrame, shmdata_any_reader_free]
          rcases hr' with he | ⟨p, hp, hlen, hfmt⟩
          · left
            rw [he]
            simp [ImageBuf.empty]
          · refine Or.inr ⟨px, by simp [hp], ?_, hfmt⟩
            rw [hp] at hm
            simp only [Option.getD_some] at hm
            rw [convert420_length hm, hlen]
        · cases h
      · simp only [Option.some.injEq] at h
        subst h
        exact ⟨by simpa [shmdata_any_reader_free] using hr',
          by simpa [shmdata_any_reader_free] using hb⟩
  · simp only [Option.some.injEq] at h
    subst h
    exact ⟨by simpa [shmdata_any_reader_free] using hr,
      by simpa [shmdata_any_reader_free, hb'] using hb⟩

/-- In every reachable state both reader buffers are sized. -/
theorem reachable_sized {ctx : Reader} (h : Reachable ctx) :
    ctx.readerBuffer.Sized ∧ ctx.bufferImage.Sized := by
  induction h with
  | init => exact ⟨Or.inl rfl, Or.inl rfl⟩
  | @step c c' d _ hstep ih =>
    unfold onData at hstep
    rcases updateDescriptor_cases c d with ⟨_, hx⟩ | ⟨_, _, hx⟩ | ⟨_, _, ⟨_, hx⟩ | ⟨ρ, hp, hx⟩⟩
    · rw [hx] at hstep
      exact onFrame_sized ih.1 ih.2 hstep
    · rw [hx] at hstep
      simp only [Option.some.injEq] at hstep
      subst hstep
      simpa [shmdata_any_reader_free, clearDescriptor] using ih
    · rw [hx] at hstep
      cases hstep
    · rw [hx] at hstep
      have hside := (parseCaps_keeps hp).2.1
      simp only [Reader.frameSide, clearDescriptor, Prod.mk.injEq] at hside
      exact onFrame_sized (hside.1 ▸ ih.1) (hside.2.1 ▸ ih.2) hstep

/-- The second block can fail to reach an exit only inside the packed copy or the conversion. -/
theorem onFrame_none {ctx : Reader} {d : Delivery} (h : onFrame ctx d = none) :
    ctx.usable = true ∧ (ctx.is420 = true ∨ ctx.channels = 3 ∨ ctx.channels = 4) := by
  have hk : (resizeReaderBuffer ctx).is420 = ctx.is420
      ∧ (resizeReaderBuffer ctx).channels = ctx.channels := by
    unfold resizeReaderBuffer
    split <;> exact ⟨rfl, rfl⟩
  unfold onFrame at h
  split at h
  · rename_i hu
    refine ⟨hu, ?_⟩
    simp only at h
    split at h
    · rename_i hpk
      rw [hk.1, hk.2] at hpk
      simp only [Bool.and_eq_true, Bool.not_eq_true', Bool.or_eq_true, beq_iff_eq] at hpk
      exact Or.inr hpk.2
    · split at h
      · rename_i h4
        exact Or.inl (hk.1 ▸ h4)
      · cases h
  · cases h

/-- A delivery whose string equals the last seen one goes straight to the second block. -/
theorem onData_same_string {ctx : Reader} {d : Delivery} (hs : d.dataType = ctx.inputDataType) :
    onData ctx d = onFrame ctx d := by
  simp [onData, updateDescriptor, hs]

/-- The scans of the five keys leave the planar flag and the channel count as they are. -/
theorem scans_flags (c : Reader) (s : Str) :
    (scanBlue (scanRed (scanHeight (scanWidth (scanBpp c s) s) s) s) s).is420 = c.is420
    ∧ (scanBlue (scanRed (scanHeight (scanWidth (scanBpp c s) s) s) s) s).channels
        = c.channels := by
  simp only [scanBlue, scanRed, scanHeight, scanWidth, scanBpp]
  repeat' split
  all_goals simp

/-- The derivation of the channel count raises the planar flag only together with the YUV flag
and three channels. -/
theorem deriveChannels_planar {c c' : Reader} {s f : Str} (h : deriveChannels c s f = some c')
    (h0 : c.is420 = false) (h4 : c'.is420 = true) : c'.isYUV = true ∧ c'.channels = 3 := by
  unfold deriveChannels at h
  split at h
  · simp only [Option.some.injEq] at h
    subst h
    simp [h0] at h4
  · split at h
    · rename_i hy
      split at h
      · split at h
        · split at h
          · simp only [Option.some.injEq] at h
            subst h
            exact ⟨hy, rfl⟩
          · simp only [Option.some.injEq] at h
            subst h
            simp [h0] at h4
        · cases h
      · simp only [Option.some.injEq] at h
        subst h
        simp [h0] at h4
    · simp only [Option.some.injEq] at h
      subst h
      simp [h0] at h4

/-- After the derivation from a changed string, the planar flag implies the YUV flag and three
channels. -/
theorem parseCaps_planar {c c' : Reader} {s f : Str} (h : parseCaps c s f = some c')
    (h0 : c.is420 = false) (h4 : c'.is420 = true) : c'.isYUV = true ∧ c'.channels = 3 := by
  unfold parseCaps at h
  split at h
  · exact deriveChannels_planar h ((scans_flags c s).1.trans h0) h4
  · simp only [Option.some.injEq] at h
    subst h
    simp [h0] at h4

/-- The search of `strstr` succeeds exactly when the needle occurs in the text. -/
theorem strstr_iff (hay needle : Str) : strstr hay needle = true ↔ needle <:+: hay := by
  induction hay with
  | nil => simp [strstr, List.isEmpty_iff]
  | cons c cs ih =>
    simp only [strstr, Bool.or_eq_true, ih, List.infix_cons_iff, List.isPrefixOf_iff_prefix]

/-- The scans of a YUV string without red mask: the YUV flag is raised, and the bits per pixel
are those read by the first scan. -/
theorem scans_yuv (c : Reader) (s : Str) (hyuv : regexMatchFamily regYUV s = true)
    (hred : regexMatchKey regRed s = none) :
    (scanBlue (scanRed (scanHeight (scanWidth (scanBpp c s) s) s) s) s).isYUV = true
    ∧ (scanBlue (scanRed (scanHeight (scanWidth (scanBpp c s) s) s) s) s).bpp
        = (scanBpp c s).bpp := by
  simp only [scanBlue, scanRed, scanHeight, scanWidth, hred, hyuv, if_true]
  repeat' split
  all_goals simp

/-- The derivation of the channel count on a YUV descriptor whose bits per pixel are not 24. -/
theorem deriveChannels_yuv {X c : Reader} {s f : Str} (hb : X.bpp ≠ 24) (hy : X.isYUV = true)
    (h : deriveChannels X s f = some c) : c.isYUV = true ∧ c.bpp = 12 ∧ c.channels = 3 := by
  unfold deriveChannels at h
  rw [if_neg hb, if_pos hy] at h
  simp only at h
  split at h
  · split at h
    · split at h <;>
        (simp only [Option.some.injEq] at h; subst h; exact ⟨hy, rfl, rfl⟩)
    · cases h
  · simp only [Option.some.injEq] at h
    subst h
    exact ⟨hy, rfl, rfl⟩

/-- The derivation of the channel count gives three channels or leaves the count. -/
theorem deriveChannels_channels {c c' : Reader} {s f : Str}
    (h : deriveChannels c s f = some c') : c'.channels = c.channels ∨ c'.channels = 3 := by
  unfold deriveChannels at h
  repeat' split at h
  all_goals first
    | (simp only [Option.some.injEq] at h; subst h; simp)
    | (cases h)

/-- After the derivation from a changed string the channel count is 0 or 3. -/
theorem parseCaps_channels {c ρ : Reader} {s f : Str}
    (h : parseCaps (clearDescriptor c) s f = some ρ) : ρ.channels = 0 ∨ ρ.channels = 3 := by
  unfold parseCaps at h
  split at h
  · rcases deriveChannels_channels h with h1 | h1
    · left
      rw [h1, (scans_flags _ s).2]
      simp [clearDescriptor]
    · exact Or.inr h1
  · simp only [Option.some.injEq] at h
    subst h
    left
    simp [clearDescriptor]

/-- In every reachable state the channel count is 0 or 3. -/
theorem reachable_channels {ctx : Reader} (hr : Reachable ctx) :
    ctx.channels = 0 ∨ ctx.channels = 3 := by
  induction hr with
  | init => left; rfl
  | @step c c' d _ hstep ih =>
    have frame : ∀ ρ : Reader, (ρ.channels = 0 ∨ ρ.channels = 3) → onFrame ρ d = some c' →
        c'.channels = 0 ∨ c'.channels = 3 := by
      intro ρ hρ hf
      have hd := (onFrame_keeps hf).1
      simp only [Reader.descriptor, Descriptor.mk.injEq] at hd
      rw [hd.2.2.2.2.2.2.1]
      exact hρ
    unfold onData at hstep
    rcases updateDescriptor_cases c d with ⟨_, hx⟩ | ⟨_, _, hx⟩ | ⟨_, _, ⟨_, hx⟩ | ⟨ρ, hp, hx⟩⟩
    · rw [hx] at hstep
      exact frame c ih hstep
    · rw [hx] at hstep
      simp only [Option.some.injEq] at hstep
      subst hstep
      left
      simp [shmdata_any_reader_free, clearDescriptor]
    · rw [hx] at hstep
      cases hstep
    · rw [hx] at hstep
      exact frame ρ (parseCaps_channels hp) hstep

/-- The last branch of the second block releases the handle and returns. -/
theorem onFrame_unsupported {ρ : Reader} (d : Delivery) (h : unsupportedLayout ρ = true) :
    onFrame ρ d = some (shmdata_any_reader_free (resizeReaderBuffer ρ)) := by
  have hk : (resizeReaderBuffer ρ).is420 = ρ.is420
      ∧ (resizeReaderBuffer ρ).channels = ρ.channels := by
    unfold resizeReaderBuffer
    split <;> exact ⟨rfl, rfl⟩
  simp only [unsupportedLayout, Bool.and_eq_true, Bool.not_eq_true'] at h
  obtain ⟨⟨hu, hp⟩, h4⟩ := h
  simp only [h4] at hp
  simp only [onFrame, hu, if_true, hk.1, hk.2, h4, hp, Bool.false_eq_true, if_false]

/-- After the resize the producer-side buffer has the geometry of the descriptor. -/
theorem resizeReaderBuffer_triple (ρ : Reader) :
    (resizeReaderBuffer ρ).readerBuffer.triple = ρ.triple
      ∧ (resizeReaderBuffer ρ).bufferImage = ρ.bufferImage
      ∧ (resizeReaderBuffer ρ).descriptor = ρ.descriptor := by
  unfold resizeReaderBuffer
  split
  · exact ⟨rfl, rfl, rfl⟩
  · rename_i hgeo
    simp only [not_or, not_not] at hgeo
    refine ⟨?_, rfl, rfl⟩
    simp only [ImageBuf.triple, Reader.triple, hgeo]

/-- A delivery that completes a frame leaves as producer-side buffer the buffer that was
exposed, and exposes a buffer of the geometry of the descriptor. -/
theorem completesFrame_exchange {ctx ctx' : Reader} {d : Delivery}
    (h : onData ctx d = some ctx') (hc : completesFrame ctx d = true) :
    ctx'.readerBuffer = ctx.bufferImage ∧ ctx'.bufferImage.triple = ctx'.triple := by
  unfold completesFrame at hc
  unfold onData at h
  split at hc
  · rename_i ρ hρ
    rw [hρ] at h
    simp only at h
    simp only [Bool.and_eq_true, Bool.or_eq_true] at hc
    obtain ⟨hu, hbr⟩ := hc
    have hk : (resizeReaderBuffer ρ).is420 = ρ.is420
        ∧ (resizeReaderBuffer ρ).channels = ρ.channels := by
      unfold resizeReaderBuffer
      split <;> exact ⟨rfl, rfl⟩
    obtain ⟨hside, -, -⟩ := updateDescriptor_proceed hρ
    simp only [Reader.frameSide, Prod.mk.injEq] at hside
    obtain ⟨ht, hb, hd⟩ := resizeReaderBuffer_triple ρ
    have hd' := (onFrame_keeps h).1
    have htr : ctx'.triple = ρ.triple := by
      simp only [Reader.descriptor, Descriptor.mk.injEq] at hd'
      simp only [Reader.triple, hd'.2.1, hd'.2.2.1, hd'.2.2.2.2.2.2.1]
    rw [htr, ← ht]
    unfold onFrame at h
    rw [if_pos hu] at h
    simp only at h
    split at h
    · split at h
      · simp only [Option.some.injEq] at h
        subst h
        exact ⟨by simp [completeFrame, shmdata_any_reader_free, hb, hside.2.1],
          by simp [completeFrame, shmdata_any_reader_free, ImageBuf.triple]⟩
      · cases h
    · split at h
      · split at h
        · simp only [Option.some.injEq] at h
          subst h
          exact ⟨by simp [completeFrame, shmdata_any_reader_free, hb, hside.2.1],
            by simp [completeFrame, shmdata_any_reader_free, ImageBuf.triple]⟩
        · cases h
      · rename_i hnp hn4
        rw [hk.1, hk.2] at hnp
        rw [hk.1] at hn4
        rcases hbr with hpk | h4
        · exact absurd (by simpa using hpk) hnp
        · exact absurd h4 hn4
  · cases hc

/-! ## Lemmas on the conversion -/

/-- The model of `std::to_string` writes the number in decimal. -/
theorem to_string_eq_toString (v : Int) : to_string v = (toString v).toList := by
  cases v with
  | ofNat n =>
    have h : ¬ ((n : Int) < 0) := by omega
    simp only [to_string, Int.ofNat_eq_coe, if_neg h, Int.natAbs_ofNat]
    rfl
  | negSucc n =>
    have h : Int.negSucc n < 0 := Int.negSucc_lt_zero n
    simp only [to_string, if_pos h]
    rfl

/-- C1 (the code departs from the claim). On the RGB string of the wire format, delivered to a
reader in any state left by a string of another family, no field is read: the text after each
key starts with a digit while the scan format asks for a closing parenthesis first. The reader
ends with the cleared descriptor, not usable, and the frame is dropped. -/
theorem onData_rgb24_wire_string_dropped (ctx : Reader) (data : List Byte) (format0 : Str)
    (now : Nat) :
    onData { ctx with inputDataType := capsAudio }
        { type_description := capsRgb24, data := data, regexError := false,
          format0 := format0, now := now }
      = some (shmdata_any_reader_free
          (clearDescriptor { ctx with inputDataType := capsRgb24 })) := by
  have hd : cString capsRgb24 = capsRgb24 := by decide
  have hne : capsRgb24 ≠ capsAudio := by decide
  have h1 : regexMatchFamily regRgb capsRgb24 = true := by decide
  obtain ⟨sb, hb, hb0⟩ : ∃ sb, regexMatchKey regBpp capsRgb24 = some sb
      ∧ sscanfInt sb = none := ⟨_, rfl, by decide⟩
  obtain ⟨sw, hw, hw0⟩ : ∃ sw, regexMatchKey regWidth capsRgb24 = some sw
      ∧ sscanfInt sw = none := ⟨_, rfl, by decide⟩
  obtain ⟨sh, hh, hh0⟩ : ∃ sh, regexMatchKey regHeight capsRgb24 = some sh
      ∧ sscanfInt sh = none := ⟨_, rfl, by decide⟩
  obtain ⟨sr, hr, hr0⟩ : ∃ sr, regexMatchKey regRed capsRgb24 = some sr
      ∧ sscanfInt sr = none := ⟨_, rfl, by decide⟩
  obtain ⟨sl, hl, hl0⟩ : ∃ sl, regexMatchKey regBlue capsRgb24 = some sl
      ∧ sscanfInt sl = none := ⟨_, rfl, by decide⟩
  simp [onData, updateDescriptor, Delivery.dataType, hd, hne, parseCaps, h1, scanBpp, scanWidth,
    scanHeight, scanRed, scanBlue, deriveChannels, hb, hw, hh, hr, hl, assignInt, hb0, hw0, hh0,
    hr0, hl0, clearDescriptor, onFrame, Reader.usable]

/-- C2 (the code departs from the claim). For height 2, divisible by 2, every band is empty
(2 / 16 = 0): the conversion writes no byte whatever the width, the input and the output block.
Delivered to a fresh reader, a 2 x 2 frame of luma 255 and chroma 128 is published as twelve
bytes of fresh storage, none of them the value 255 the claim gives. -/
theorem convert420_height_2_writes_nothing :
    (∀ (width : Int) (data pixels : List Byte), convert420 width 2 data pixels = some pixels)
    ∧ (onData Reader.init (deliver capsI420 frameI420)).map
        (fun c => (c.is420, c.bufferImage.localpixels))
        = some (true, some (List.replicate 12 0))
    ∧ toUChar (clamp (((255 : Int) * 38142).tdiv 32768) 0 255) = 255 := by
  refine ⟨?_, by decide, by decide⟩
  intro width data pixels
  have h0 : ∀ block : Nat, bandRows 2 block = [] := by
    intro block
    simp [bandRows, rowsFrom, SPLASH_SHMDATA_THREADS, Int.tdiv]
  have hfold : ∀ (l : List Nat) (p : List Byte),
      List.foldlM (fun (q : List Byte) (_ : Nat) => some q) p l = some p := by
    intro l
    induction l with
    | nil => intro p; rfl
    | cons a l ih => intro p; simpa [List.foldlM] using ih p
  simpa [convert420, convertBand, h0] using hfold _ pixels

/-- C3 (the code departs from the claim). For height 17 the sixteen bands are the single rows
0 to 15: row 16 belongs to no band. -/
theorem bandRows_height_17_skips_row_16 :
    ((List.range SPLASH_SHMDATA_THREADS).map (bandRows 17)).flatten = rowsFrom 0 16
    ∧ (16 : Int) ∉ ((List.range SPLASH_SHMDATA_THREADS).map (bandRows 17)).flatten := by
  decide

/-- C4. Every invocation of the callback that returns has released the delivery handle exactly
once, whichever of the five exits it takes. An invocation can fail to return only where the
format token is stored, or in the packed copy or the planar conversion of a usable descriptor
(an access outside a memory block); the exits on pattern-construction failure, unusable
descriptor and unsupported channel layout are always reached. -/
theorem onData_releases_handle_once (ctx : Reader) (d : Delivery) :
    (∀ ctx', onData ctx d = some ctx' → ctx'.freed = ctx.freed + 1)
    ∧ (onData ctx d = none →
        updateDescriptor ctx d = none
        ∨ ∃ ρ, updateDescriptor ctx d = some (.proceed ρ) ∧ ρ.usable = true
            ∧ (ρ.is420 = true ∨ ρ.channels = 3 ∨ ρ.channels = 4)) := by
  refine ⟨fun ctx' h => (onData_keeps h).2, ?_⟩
  intro h
  unfold onData at h
  rcases updateDescriptor_cases ctx d with ⟨_, hx⟩ | ⟨_, _, hx⟩ | ⟨_, _, ⟨_, hx⟩ | ⟨ρ, _, hx⟩⟩
  · rw [hx] at h
    exact Or.inr ⟨ctx, hx, onFrame_none h⟩
  · rw [hx] at h
    cases h
  · exact Or.inl hx
  · rw [hx] at h
    exact Or.inr ⟨ρ, hx, onFrame_none h⟩

theorem onData_releases_handle_once_witness :
    ∃ ctx', onData Reader.init (deliver capsI420 frameI420) = some ctx'
      ∧ ctx'.freed = Reader.init.freed + 1 :=
  ⟨_, rfl, (onData_releases_handle_once Reader.init (deliver capsI420 frameI420)).1 _ rfl⟩

/-- C5. When the descriptor is not usable after a delivery, the consumer-exposed buffer, the
producer-side buffer, the new-frame flag and the time stamp are those of before the call. -/
theorem onData_unusable_keeps_frame (ctx : Reader) (d : Delivery) (ctx' : Reader)
    (h : onData ctx d = some ctx') (hu : ctx'.usable = false) :
    ctx'.bufferImage = ctx.bufferImage ∧ ctx'.readerBuffer = ctx.readerBuffer
      ∧ ctx'.imageUpdated = ctx.imageUpdated ∧ ctx'.timestamp = ctx.timestamp := by
  have frame : ∀ ρ : Reader, ρ.frameSide = ctx.frameSide → onFrame ρ d = some ctx' →
      ctx'.bufferImage = ctx.bufferImage ∧ ctx'.readerBuffer = ctx.readerBuffer
        ∧ ctx'.imageUpdated = ctx.imageUpdated ∧ ctx'.timestamp = ctx.timestamp := by
    intro ρ hρ hf
    have hρu : ρ.usable = false := by
      rw [← usable_congr (onFrame_keeps hf).1]; exact hu
    rw [onFrame_not_usable d hρu] at hf
    simp only [Option.some.injEq] at hf
    subst hf
    simp only [Reader.frameSide, Prod.mk.injEq] at hρ
    simp [shmdata_any_reader_free, hρ]
  unfold onData at h
  rcases updateDescriptor_cases ctx d with ⟨_, hx⟩ | ⟨_, _, hx⟩ | ⟨_, _, ⟨_, hx⟩ | ⟨ρ, hp, hx⟩⟩
  · rw [hx] at h
    exact frame ctx rfl h
  · rw [hx] at h
    simp only [Option.some.injEq] at h
    subst h
    simp [shmdata_any_reader_free, clearDescriptor]
  · rw [hx] at h
    cases h
  · rw [hx] at h
    exact frame ρ ((parseCaps_keeps hp).2.1.trans (by simp [clearDescriptor, Reader.frameSide])) h

theorem onData_unusable_keeps_frame_witness :
    ∃ ctx', onData readerPacked (deliver capsAudio [9, 9, 9, 9, 9, 9]) = some ctx'
      ∧ ctx'.usable = false
      ∧ (ctx'.bufferImage = readerPacked.bufferImage
        ∧ ctx'.readerBuffer = readerPacked.readerBuffer
        ∧ ctx'.imageUpdated = readerPacked.imageUpdated
        ∧ ctx'.timestamp = readerPacked.timestamp) :=
  ⟨_, rfl, rfl,
    onData_unusable_keeps_frame readerPacked (deliver capsAudio [9, 9, 9, 9, 9, 9]) _ rfl rfl⟩

/-- C6. A capability string that differs from the last seen one and starts with neither
`video/x-raw-rgb` nor `video/x-raw-yuv` makes the callback return with the descriptor cleared
(all of width, height, bpp and channel count zero, both flags false) and not usable, whatever
the reader held before. -/
theorem onData_unknown_family_clears (ctx : Reader) (d : Delivery)
    (hne : d.dataType ≠ ctx.inputDataType)
    (hrgb : ¬ "video/x-raw-rgb".toList <+: d.dataType)
    (hyuv : ¬ "video/x-raw-yuv".toList <+: d.dataType) :
    ∃ ctx', onData ctx d = some ctx' ∧ ctx'.descriptor = Descriptor.zero
      ∧ ctx'.width = 0 ∧ ctx'.height = 0 ∧ ctx'.bpp = 0 ∧ ctx'.channels = 0
      ∧ ctx'.isYUV = false ∧ ctx'.is420 = false ∧ ctx'.usable = false := by
  have hz : (clearDescriptor { ctx with inputDataType := d.dataType }).usable = false := by
    simp [clearDescriptor, Reader.usable]
  refine ⟨shmdata_any_reader_free (clearDescriptor { ctx with inputDataType := d.dataType }),
    ?_, ?_⟩
  · rcases updateDescriptor_cases ctx d with ⟨hs, _⟩ | ⟨_, _, hx⟩ | ⟨_, _, ⟨hp, _⟩ | ⟨ρ, hp, hx⟩⟩
    · exact absurd hs hne
    · simp [onData, hx]
    · rw [parseCaps_unknown_family _ _ _ hrgb hyuv] at hp
      cases hp
    · rw [parseCaps_unknown_family _ _ _ hrgb hyuv] at hp
      simp only [Option.some.injEq] at hp
      subst hp
      simp only [onData, hx]
      exact onFrame_not_usable d hz
  · simp [shmdata_any_reader_free, clearDescriptor, Reader.descriptor, Descriptor.zero,
      Reader.usable]

theorem onData_unknown_family_clears_witness :
    ∃ ctx', onData readerPacked (deliver capsAudio [9, 9, 9, 9, 9, 9]) = some ctx'
      ∧ ctx'.descriptor = Descriptor.zero
      ∧ ctx'.width = 0 ∧ ctx'.height = 0 ∧ ctx'.bpp = 0 ∧ ctx'.channels = 0
      ∧ ctx'.isYUV = false ∧ ctx'.is420 = false ∧ ctx'.usable = false :=
  onData_unknown_family_clears readerPacked (deliver capsAudio [9, 9, 9, 9, 9, 9])
    (by decide) (by decide) (by decide)

/-- C7 (as stated, refuted). A reader holding a 2 x 1 packed descriptor receives a string of
neither family: the callback returns and the descriptor is not the one held before. -/
theorem onData_unparsed_string_changes_descriptor :
    ¬ "video/x-raw-rgb".toList <+: (deliver capsAudio [9, 9, 9, 9, 9, 9]).dataType
    ∧ ¬ "video/x-raw-yuv".toList <+: (deliver capsAudio [9, 9, 9, 9, 9, 9]).dataType
    ∧ ∃ ctx', onData readerPacked (deliver capsAudio [9, 9, 9, 9, 9, 9]) = some ctx'
        ∧ ctx'.descriptor ≠ readerPacked.descriptor := by
  refine ⟨?_, ?_, _, rfl, by decide⟩
  · rw [← List.isPrefixOf_iff_prefix]; decide
  · rw [← List.isPrefixOf_iff_prefix]; decide

/-- C7 (amended). When the delivered string fails to parse (neither family, or pattern
construction fails) the descriptor after the call is the one held before if the string equals
the last seen one, and the cleared descriptor otherwise. -/
theorem onData_unparsed_string_descriptor (ctx : Reader) (d : Delivery) (ctx' : Reader)
    (h : onData ctx d = some ctx')
    (hfail : (¬ "video/x-raw-rgb".toList <+: d.dataType
                ∧ ¬ "video/x-raw-yuv".toList <+: d.dataType) ∨ d.regexError = true) :
    ctx'.descriptor
      = if d.dataType = ctx.inputDataType then ctx.descriptor else Descriptor.zero := by
  unfold onData at h
  rcases updateDescriptor_cases ctx d with ⟨hs, hx⟩ | ⟨hs, _, hx⟩ | ⟨hs, he, ⟨_, hx⟩ | ⟨ρ, hp, hx⟩⟩
  · rw [hx] at h
    rw [if_pos hs]
    exact (onFrame_keeps h).1
  · rw [hx] at h
    simp only [Option.some.injEq] at h
    subst h
    rw [if_neg hs]
    simp [shmdata_any_reader_free, clearDescriptor, Reader.descriptor, Descriptor.zero]
  · rw [hx] at h
    cases h
  · rw [hx] at h
    rw [if_neg hs]
    rcases hfail with ⟨hrgb, hyuv⟩ | hr
    · rw [parseCaps_unknown_family _ _ _ hrgb hyuv] at hp
      simp only [Option.some.injEq] at hp
      subst hp
      rw [(onFrame_keeps h).1]
      simp [clearDescriptor, Reader.descriptor, Descriptor.zero]
    · rw [he] at hr
      cases hr

theorem onData_unparsed_string_descriptor_witness :
    ∃ ctx', onData readerPacked (deliver capsAudio [9, 9, 9, 9, 9, 9]) = some ctx'
      ∧ ctx'.descriptor
        = if (deliver capsAudio [9, 9, 9, 9, 9, 9]).dataType = readerPacked.inputDataType
          then readerPacked.descriptor else Descriptor.zero :=
  ⟨_, rfl,
    onData_unparsed_string_descriptor readerPacked (deliver capsAudio [9, 9, 9, 9, 9, 9]) _ rfl
      (Or.inl ⟨by rw [← List.isPrefixOf_iff_prefix]; decide,
        by rw [← List.isPrefixOf_iff_prefix]; decide⟩)⟩

/-- C8. Two successive deliveries of the same capability string: the descriptor after the second
is the descriptor after the first. And whenever the delivered string equals the last seen one,
the first block changes nothing, the callback is its second block alone, and every descriptor
field (masks included) is as before. -/
theorem onData_same_string_idempotent (ctx : Reader) (d₁ d₂ : Delivery) (ctx₁ ctx₂ : Reader)
    (hs : d₂.dataType = d₁.dataType) (h₁ : onData ctx d₁ = some ctx₁)
    (h₂ : onData ctx₁ d₂ = some ctx₂) :
    ctx₂.descriptor = ctx₁.descriptor
    ∧ ∀ (c : Reader) (d : Delivery), d.dataType = c.inputDataType →
        updateDescriptor c d = some (.proceed c) ∧ onData c d = onFrame c d
        ∧ ∀ c', onData c d = some c' → c'.descriptor = c.descriptor := by
  have same : ∀ (c : Reader) (d : Delivery), d.dataType = c.inputDataType →
      updateDescriptor c d = some (.proceed c) ∧ onData c d = onFrame c d
      ∧ ∀ c', onData c d = some c' → c'.descriptor = c.descriptor := by
    intro c d hcd
    refine ⟨by simp [updateDescriptor, hcd], onData_same_string hcd, ?_⟩
    intro c' hc'
    rw [onData_same_string hcd] at hc'
    exact (onFrame_keeps hc').1
  refine ⟨?_, same⟩
  have hlast : d₂.dataType = ctx₁.inputDataType := by
    rw [hs, (onData_keeps h₁).1]
  exact (same ctx₁ d₂ hlast).2.2 ctx₂ h₂

theorem onData_same_string_idempotent_witness :
    ∃ ctx₁ ctx₂, onData Reader.init (deliver capsPacked [1, 2, 3, 4, 5, 6]) = some ctx₁
      ∧ onData ctx₁ (deliver capsPacked [6, 5, 4, 3, 2, 1]) = some ctx₂
      ∧ ctx₂.descriptor = ctx₁.descriptor :=
  ⟨_, _, rfl, rfl,
    (onData_same_string_idempotent Reader.init (deliver capsPacked [1, 2, 3, 4, 5, 6])
      (deliver capsPacked [6, 5, 4, 3, 2, 1]) _ _ rfl rfl rfl).1⟩

/-- C9 (the code departs from the claim). A fresh reader receives a string read as packed RGB of
width -2 and height 1 with six bytes of data: the descriptor passes the usable test, which only
asks for non-zero fields, it is packed, and the data holds at least width * height * channels
= -6 bytes. The copy is then given the negative count and the callback completes no frame, where
the claim has the frame copied and exposed. -/
theorem onData_negative_width_no_frame :
    ∃ ρ, Reachable Reader.init
      ∧ updateDescriptor Reader.init (deliver capsNegative [1, 2, 3, 4, 5, 6])
          = some (.proceed ρ)
      ∧ ρ.usable = true ∧ ρ.is420 = false ∧ ρ.channels = 3
      ∧ ρ.width * ρ.height * ρ.channels
          ≤ ((deliver capsNegative [1, 2, 3, 4, 5, 6]).data.length : Int)
      ∧ onData Reader.init (deliver capsNegative [1, 2, 3, 4, 5, 6]) = none :=
  ⟨_, Reachable.init, rfl, by decide, by decide, by decide, by decide, by decide⟩

/-- The packed copy on positive dimensions. In a reachable reader state, let the first block hand
over a descriptor that is usable and packed (not planar, 3 or 4 channels) with positive width
and positive height, the raw data holding at least width * height * channels bytes. Then the
callback returns; the consumer-exposed buffer has the geometry of the descriptor and starts with
the first width * height * channels raw bytes; the new-frame flag is set; the producer-side
buffer is the buffer that was exposed before. -/
theorem onData_packed_copy (ctx : Reader) (d : Delivery) (ρ : Reader)
    (hreach : Reachable ctx)
    (hρ : updateDescriptor ctx d = some (.proceed ρ))
    (hus : ρ.usable = true) (h420 : ρ.is420 = false)
    (hch : ρ.channels = 3 ∨ ρ.channels = 4)
    (hwidth : 0 < ρ.width) (hheight : 0 < ρ.height)
    (hraw : ρ.width * ρ.height * ρ.channels ≤ (d.data.length : Int)) :
    ∃ ctx' out, onData ctx d = some ctx'
      ∧ ctx'.descriptor = ρ.descriptor
      ∧ ctx'.bufferImage.spec.width = ρ.width ∧ ctx'.bufferImage.spec.height = ρ.height
      ∧ ctx'.bufferImage.spec.nchannels = ρ.channels
      ∧ ctx'.bufferImage.localpixels = some out
      ∧ out.take (ρ.width * ρ.height * ρ.channels).toNat
          = d.data.take (ρ.width * ρ.height * ρ.channels).toNat
      ∧ ctx'.imageUpdated = true
      ∧ ctx'.readerBuffer = ctx.bufferImage := by
  have hpos : 0 < ρ.width * ρ.height * ρ.channels :=
    Int.mul_pos (Int.mul_pos hwidth hheight) (by rcases hch with h | h <;> rw [h] <;> decide)
  obtain ⟨hside, -, -⟩ := updateDescriptor_proceed hρ
  simp only [Reader.frameSide, Prod.mk.injEq] at hside
  obtain ⟨hrb, hbi, -, -⟩ := hside
  have hpack : (!ρ.is420 && (ρ.channels == 3 || ρ.channels == 4)) = true := by
    rcases hch with h | h <;> simp [h420, h]
  have hn : (ρ.width * ρ.height * ρ.channels).toNat ≤ d.data.length := by
    omega
  have htake : ∀ rest : List Byte,
      (List.take (ρ.width * ρ.height * ρ.channels).toNat d.data ++ rest).take
          (ρ.width * ρ.height * ρ.channels).toNat
        = d.data.take (ρ.width * ρ.height * ρ.channels).toNat := by
    intro rest
    rw [List.take_append_of_le_length (by simp [hn])]
    simp
  obtain ⟨p, hp, hlen, hw, hh, hc⟩ : ∃ p, (resizeReaderBuffer ρ).readerBuffer.localpixels = some p
      ∧ (ρ.width * ρ.height * ρ.channels).toNat ≤ p.length
      ∧ (resizeReaderBuffer ρ).readerBuffer.spec.width = ρ.width
      ∧ (resizeReaderBuffer ρ).readerBuffer.spec.height = ρ.height
      ∧ (resizeReaderBuffer ρ).readerBuffer.spec.nchannels = ρ.channels := by
    by_cases hgeo : ρ.readerBuffer.spec.width ≠ ρ.width ∨ ρ.readerBuffer.spec.height ≠ ρ.height
        ∨ ρ.readerBuffer.spec.nchannels ≠ ρ.channels
    · have hres : resizeReaderBuffer ρ = { ρ with
          readerBuffer := ImageBuf.reset (ImageSpec.mk ρ.width ρ.height ρ.channels .UINT8) } :=
        if_pos hgeo
      rw [hres]
      exact ⟨_, rfl, by simp [ImageSpec.imageBytes, TypeDesc.size], rfl, rfl, rfl⟩
    · have hres : resizeReaderBuffer ρ = ρ := if_neg hgeo
      have hgeo' : ρ.readerBuffer.spec.width = ρ.width ∧ ρ.readerBuffer.spec.height = ρ.height
          ∧ ρ.readerBuffer.spec.nchannels = ρ.channels := by
        simpa [not_or] using hgeo
      have hsz : ρ.readerBuffer.Sized := hrb ▸ (reachable_sized hreach).1
      rw [hres]
      rcases hsz with he | ⟨px, hpx, hlen, hfmt⟩
      · rw [he] at hgeo'
        simp only [ImageBuf.empty] at hgeo'
        rw [← hgeo'.1] at hpos
        simp at hpos
      · refine ⟨px, hpx, ?_, hgeo'.1, hgeo'.2.1, hgeo'.2.2⟩
        rw [hlen, ImageSpec.imageBytes, hfmt, hgeo'.1, hgeo'.2.1, hgeo'.2.2]
        simp [TypeDesc.size]
  have hkeep : (resizeReaderBuffer ρ).descriptor = ρ.descriptor
      ∧ (resizeReaderBuffer ρ).bufferImage = ρ.bufferImage := by
    unfold resizeReaderBuffer
    split <;> exact ⟨rfl, rfl⟩
  have hdesc := hkeep.1
  simp only [Reader.descriptor, Descriptor.mk.injEq] at hdesc
  obtain ⟨-, hw', hh', -, -, -, hc', -, h420'⟩ := hdesc
  refine ⟨completeFrame
      { resizeReaderBuffer ρ with
        readerBuffer :=
          { (resizeReaderBuffer ρ).readerBuffer with
            localpixels := some (d.data.take (ρ.width * ρ.height * ρ.channels).toNat
              ++ p.drop (ρ.width * ρ.height * ρ.channels).toNat) } } d.now,
    _, ?_, ?_, ?_, ?_, ?_, rfl, htake _, ?_, ?_⟩
  · simp only [onData, hρ, onFrame, hus, if_true, hw', hh', hc', h420', hpack, memcpy, hp]
    rw [if_pos ⟨le_of_lt hpos, hn, hlen⟩]
  · simpa [completeFrame, shmdata_any_reader_free, Reader.descriptor] using hkeep.1
  · simpa [completeFrame, shmdata_any_reader_free] using hw
  · simpa [completeFrame, shmdata_any_reader_free] using hh
  · simpa [completeFrame, shmdata_any_reader_free] using hc
  · simp [completeFrame, shmdata_any_reader_free]
  · simp [completeFrame, shmdata_any_reader_free, hkeep.2, hbi]

theorem onData_packed_copy_witness :
    ∃ ctx' out, onData Reader.init (deliver capsPacked [1, 2, 3, 4, 5, 6]) = some ctx'
      ∧ ctx'.descriptor = readerPacked.descriptor
      ∧ ctx'.bufferImage.spec.width = readerPacked.width
      ∧ ctx'.bufferImage.spec.height = readerPacked.height
      ∧ ctx'.bufferImage.spec.nchannels = readerPacked.channels
      ∧ ctx'.bufferImage.localpixels = some out
      ∧ out.take (readerPacked.width * readerPacked.height * readerPacked.channels).toNat
          = (deliver capsPacked [1, 2, 3, 4, 5, 6]).data.take
              (readerPacked.width * readerPacked.height * readerPacked.channels).toNat
      ∧ ctx'.imageUpdated = true
      ∧ ctx'.readerBuffer = Reader.init.bufferImage :=
  onData_packed_copy Reader.init (deliver capsPacked [1, 2, 3, 4, 5, 6])
    { readerPacked with readerBuffer := ImageBuf.empty, bufferImage := ImageBuf.empty,
                        imageUpdated := false, timestamp := 0, freed := 0 }
    Reachable.init (by decide) (by decide) (by decide) (by decide) (by decide) (by decide)
    (by decide)

/-- C10. A frame without pixel storage is refused: `write` returns false and the writer is
exactly as before (no call on the transport, no copy, nothing published). -/
theorem write_null_pixels (ctx : Writer) (img : ImageBuf) (filename : Str) (env : WriterEnv)
    (h : img.localpixels = none) : write ctx img filename env = some (false, ctx) := by
  simp [write, h]

theorem write_null_pixels_witness :
    write Writer.init frameNoPixels "/tmp/splash".toList envOpen = some (false, Writer.init) :=
  write_null_pixels Writer.init frameNoPixels "/tmp/splash".toList envOpen rfl

/-- C17 (the code departs from the claim). In exact rational arithmetic four of the five
constants are within 1 of the BT.601 coefficient times 2^15: 38142 (1.164), 52298 (1.596),
12846 (0.392), 66094 (2.017). The weight of V in green is not: 32768 * 0.813 = 26640.384 while
the code has 36641, which is 10000 above the constant that would fit. For Y = 128, U = 128,
V = 255 the code gives green 6 where the fitting constant gives 45. -/
theorem coefVtoG_not_bt601 :
    |(coefY : ℚ) - 32768 * (1164 / 1000)| < 1
    ∧ |(coefVtoR : ℚ) - 32768 * (1596 / 1000)| < 1
    ∧ |(coefUtoG : ℚ) - 32768 * (392 / 1000)| < 1
    ∧ |(coefUtoB : ℚ) - 32768 * (2017 / 1000)| < 1
    ∧ ¬ |(coefVtoG : ℚ) - 32768 * (813 / 1000)| < 1
    ∧ |((coefVtoG - 10000 : Int) : ℚ) - 32768 * (813 / 1000)| < 1
    ∧ toUChar (clamp ((128 * coefY + (-coefUtoG * (128 - 128) - coefVtoG * (255 - 128))).tdiv
        32768) 0 255) = 6
    ∧ toUChar (clamp ((128 * coefY
        + (-coefUtoG * (128 - 128) - (coefVtoG - 10000) * (255 - 128))).tdiv 32768) 0 255)
        = 45 := by
  refine ⟨?_, ?_, ?_, ?_, ?_, ?_, by decide, by decide⟩ <;>
    norm_num [coefY, coefVtoR, coefUtoG, coefUtoB, coefVtoG, abs_lt]

/-- C18. In every reader state reachable from the fresh object, the planar flag implies the YUV
flag and a channel count of three. -/
theorem reachable_planar_is_yuv (ctx : Reader) (hr : Reachable ctx) (h4 : ctx.is420 = true) :
    ctx.isYUV = true ∧ ctx.channels = 3 := by
  induction hr with
  | init => simp [Reader.init] at h4
  | @step c c' d _ hstep ih =>
    have frame : ∀ ρ : Reader, (ρ.is420 = true → ρ.isYUV = true ∧ ρ.channels = 3) →
        onFrame ρ d = some c' → c'.isYUV = true ∧ c'.channels = 3 := by
      intro ρ hρ hf
      have hd := (onFrame_keeps hf).1
      simp only [Reader.descriptor, Descriptor.mk.injEq] at hd
      obtain ⟨-, -, -, -, -, -, hc, hy, hp⟩ := hd
      rw [hc, hy]
      exact hρ (hp ▸ h4)
    unfold onData at hstep
    rcases updateDescriptor_cases c d with ⟨_, hx⟩ | ⟨_, _, hx⟩ | ⟨_, _, ⟨_, hx⟩ | ⟨ρ, hp, hx⟩⟩
    · rw [hx] at hstep
      exact frame c ih hstep
    · rw [hx] at hstep
      simp only [Option.some.injEq] at hstep
      subst hstep
      simp [shmdata_any_reader_free, clearDescriptor] at h4
    · rw [hx] at hstep
      cases hstep
    · rw [hx] at hstep
      exact frame ρ (parseCaps_planar hp (by simp [clearDescriptor])) hstep

theorem reachable_planar_is_yuv_witness :
    ∃ ctx', onData Reader.init (deliver capsI420 frameI420) = some ctx'
      ∧ ctx'.is420 = true ∧ (ctx'.isYUV = true ∧ ctx'.channels = 3) :=
  ⟨_, rfl, rfl,
    reachable_planar_is_yuv _ (Reachable.step (deliver capsI420 frameI420) Reachable.init rfl)
      rfl⟩

/-- C19 (the code departs from the claim). A fresh reader receives a string declaring width -2,
height 1 and 24 bits per pixel: after parsing the usable test holds (all four fields are
non-zero) while width * height * channels is -6. -/
theorem updateDescriptor_negative_width_usable :
    ∃ ρ, updateDescriptor Reader.init (deliver capsNegative [1, 2, 3, 4, 5, 6])
          = some (.proceed ρ)
      ∧ ρ.width = -2 ∧ ρ.height = 1 ∧ ρ.bpp = 24 ∧ ρ.channels = 3
      ∧ ρ.usable = true
      ∧ ρ.width * ρ.height * ρ.channels = -6 :=
  ⟨_, rfl, by decide, by decide, by decide, by decide, by decide, by decide⟩

/-- C11. Renegotiation on a frame of four 8-bit channels makes, after the optional close, the
calls init, set_data_type with exactly the masked-RGB string of the interface for the width and
height of the frame in decimal, set_path, and start when the path opens; on a frame of one
16-bit channel the same with the grayscale string. The RGB string contains `width=<w>`,
`height=<h>` and `bpp=32`. -/
theorem initShmWriter_data_type (ctx : Writer) (spec : ImageSpec) (filename : Str)
    (env : WriterEnv) :
    (spec.format = .UINT8 → spec.nchannels = 4 →
      (initShmWriter ctx spec filename env).2.calls
        = ctx.calls ++ renegotiationCalls ctx.writer (rgbEncoding spec.width spec.height)
            filename env.setPathOk
      ∧ ("width=".toList ++ (toString spec.width).toList)
          <:+: rgbEncoding spec.width spec.height
      ∧ ("height=".toList ++ (toString spec.height).toList)
          <:+: rgbEncoding spec.width spec.height
      ∧ "bpp=32".toList <:+: rgbEncoding spec.width spec.height)
    ∧ (spec.format = .UINT16 → spec.nchannels = 1 →
      (initShmWriter ctx spec filename env).2.calls
        = ctx.calls ++ renegotiationCalls ctx.writer (grayEncoding spec.width spec.height)
            filename env.setPathOk) := by
  refine ⟨fun hf hc => ⟨?_, ?_, ?_, ?_⟩, fun hf hc => ?_⟩
  · have hsel : selectDataType spec
        = some ("video/x-raw-rgb,bpp=32,endianness=4321,depth=32,red_mask=-16777216,".toList
            ++ "green_mask=16711680,blue_mask=65280,".toList, 4) := by
      simp [selectDataType, hf, hc]
    unfold initShmWriter
    simp only [hsel]
    cases ctx.writer <;> cases env.setPathOk <;>
      simp [completeDataType, to_string_eq_toString, rgbEncoding, renegotiationCalls]
  · exact ⟨"video/x-raw-rgb,bpp=32,endianness=4321,depth=32,red_mask=-16777216,".toList
        ++ "green_mask=16711680,blue_mask=65280,".toList,
      ",height=".toList ++ (toString spec.height).toList ++ ",framerate=60/1".toList,
      by simp [rgbEncoding]⟩
  · exact ⟨"video/x-raw-rgb,bpp=32,endianness=4321,depth=32,red_mask=-16777216,".toList
        ++ "green_mask=16711680,blue_mask=65280,width=".toList
        ++ (toString spec.width).toList ++ ",".toList,
      ",framerate=60/1".toList, by simp [rgbEncoding]⟩
  · exact ⟨"video/x-raw-rgb,".toList,
      ",endianness=4321,depth=32,red_mask=-16777216,".toList
        ++ "green_mask=16711680,blue_mask=65280,width=".toList ++ (toString spec.width).toList
        ++ ",height=".toList ++ (toString spec.height).toList ++ ",framerate=60/1".toList,
      by simp [rgbEncoding]⟩
  · have hsel : selectDataType spec
        = some ("video/x-raw-gray,bpp=16,endianness=4321,depth=16,".toList, 2) := by
      simp [selectDataType, hf, hc]
    unfold initShmWriter
    simp only [hsel]
    cases ctx.writer <;> cases env.setPathOk <;>
      simp [completeDataType, to_string_eq_toString, grayEncoding, renegotiationCalls]

theorem initShmWriter_data_type_witness :
    ((initShmWriter Writer.init frameRgba.spec pathSplash envOpen).2.calls
        = Writer.init.calls ++ renegotiationCalls Writer.init.writer
            (rgbEncoding frameRgba.spec.width frameRgba.spec.height) pathSplash envOpen.setPathOk
      ∧ ("width=".toList ++ (toString frameRgba.spec.width).toList)
          <:+: rgbEncoding frameRgba.spec.width frameRgba.spec.height
      ∧ ("height=".toList ++ (toString frameRgba.spec.height).toList)
          <:+: rgbEncoding frameRgba.spec.width frameRgba.spec.height
      ∧ "bpp=32".toList <:+: rgbEncoding frameRgba.spec.width frameRgba.spec.height)
    ∧ (initShmWriter Writer.init frameGray16.spec pathSplash envOpen).2.calls
        = Writer.init.calls ++ renegotiationCalls Writer.init.writer
            (grayEncoding frameGray16.spec.width frameGray16.spec.height) pathSplash
            envOpen.setPathOk :=
  ⟨(initShmWriter_data_type Writer.init frameRgba.spec pathSplash envOpen).1 rfl rfl,
    (initShmWriter_data_type Writer.init frameGray16.spec pathSplash envOpen).2 rfl rfl⟩

/-- C12 (the code departs from the claim). A fresh writer publishes a 2 x 1 frame of four
unsigned 8-bit channels; a frame of the same width, height and channel count with signed 8-bit
samples, a format that is not supported, then skips the renegotiation, where formats are
checked: `write` returns true and the frame is published. -/
theorem write_unsupported_format_published :
    ∃ w₁ w₂, write Writer.init frameRgba pathSplash envOpen = some (true, w₁)
      ∧ ¬ supportedFormat frameInt8.spec
      ∧ write w₁ frameInt8 pathSplash envOpen = some (true, w₂)
      ∧ w₂.calls = w₁.calls ++ [WriterCall.push_data [11, 12, 13, 14, 15, 16, 17, 18] 8 2 1] :=
  ⟨_, _, rfl, by simp [supportedFormat, frameInt8], rfl, by decide⟩

/-- C14 (as stated, refuted). A writer that has published a 2 x 1 frame of four 8-bit channels
is given a 1 x 1 frame of three channels: the renegotiation fails on the format and `write`
returns false, but the handle is set. The next push of a 2 x 1 four-channel frame to the same
path returns true without any renegotiation and publishes on the new handle. -/
theorem write_after_failed_renegotiation_publishes :
    ∃ w₁ w₂ w₃, write Writer.init frameRgba pathSplash envOpen = some (true, w₁)
      ∧ needsInit w₁ frameRgb.spec pathSplash = true
      ∧ (initShmWriter w₁ frameRgb.spec pathSplash envOpen).1 = false
      ∧ write w₁ frameRgb pathSplash envOpen = some (false, w₂)
      ∧ w₂.writer = true
      ∧ write w₂ frameRgbaNext pathSplash envOpen = some (true, w₃)
      ∧ renegotiations w₃.calls = renegotiations w₂.calls
      ∧ (published w₃.calls).length = (published w₂.calls).length + 1 :=
  ⟨_, _, _, rfl, by decide, by decide, rfl, by decide, rfl, by decide, by decide⟩

/-- C14 (amended). When the renegotiation inside `write` fails, `write` returns false, nothing
is published, and the handle is set (a transport that was initialised and not started). When the
failure is that the path cannot be opened (the format being supported), the bound path is
cleared, so that a next push to any non-empty path renegotiates. -/
theorem write_failed_renegotiation (ctx : Writer) (img : ImageBuf) (src : List Byte) (p : Str)
    (env : WriterEnv) (hpx : img.localpixels = some src)
    (hneed : needsInit ctx img.spec p = true)
    (hfail : (initShmWriter ctx img.spec p env).1 = false) :
    ∃ ctx', write ctx img p env = some (false, ctx')
      ∧ ctx'.writer = true
      ∧ published ctx'.calls = published ctx.calls
      ∧ (supportedFormat img.spec →
          env.setPathOk = false ∧ ctx'.filename = []
          ∧ ∀ (spec' : ImageSpec) (p' : Str), p' ≠ [] → needsInit ctx' spec' p' = true) := by
  refine ⟨(initShmWriter ctx img.spec p env).2, ?_, ?_, ?_, ?_⟩
  · simp only [write, hpx, hneed, if_true]
    rcases hi : initShmWriter ctx img.spec p env with ⟨b, c⟩
    rw [hi] at hfail
    simp only at hfail
    subst hfail
    rfl
  · unfold initShmWriter
    simp only
    split
    · rfl
    · split <;> rfl
  · unfold initShmWriter at hfail ⊢
    simp only at hfail ⊢
    split
    · cases ctx.writer <;> simp [published, List.filter_append]
    · rename_i hsel
      simp only [hsel] at hfail
      split
      · cases ctx.writer <;> simp [published, List.filter_append]
      · rename_i hok
        simp only [hok, if_false] at hfail
        cases hfail
  · intro hsup
    have hsel : (selectDataType img.spec).isSome = true := by
      rcases hsup with ⟨hf, hc⟩ | ⟨hf, hc⟩ <;> simp [selectDataType, hf, hc]
    unfold initShmWriter at hfail ⊢
    simp only at hfail ⊢
    split
    · rename_i hnone
      rw [hnone] at hsel
      cases hsel
    · rename_i hs
      simp only [hs] at hfail
      split
      · rename_i hok
        refine ⟨by simpa using hok, rfl, ?_⟩
        intro spec' p' hp'
        simp only [needsInit, Bool.or_eq_true, bne_iff_ne, ne_eq]
        exact Or.inr (fun h => hp' h.symm)
      · rename_i hok
        simp only [hok, if_false] at hfail
        cases hfail

theorem write_failed_renegotiation_witness :
    ∃ ctx', write Writer.init frameRgba pathSplash envClosed = some (false, ctx')
      ∧ ctx'.writer = true
      ∧ published ctx'.calls = published Writer.init.calls
      ∧ (supportedFormat frameRgba.spec →
          envClosed.setPathOk = false ∧ ctx'.filename = []
          ∧ ∀ (spec' : ImageSpec) (p' : Str), p' ≠ [] → needsInit ctx' spec' p' = true) :=
  write_failed_renegotiation Writer.init frameRgba [1, 2, 3, 4, 5, 6, 7, 8] pathSplash
    envClosed rfl (by decide) (by decide)

/-- C15 (the code departs from the claim). A fresh writer publishes a 2 x 1 frame of four 8-bit
channels, then is given a 1 x 1 frame of three channels, which fails on the format and leaves
the input size at zero. The next 2 x 1 four-channel frame to the same path is accepted without
renegotiation: `write` returns true having copied and published 0 bytes instead of 4 * 2 * 1,
and the internal buffer still holds the bytes of the first frame, not those of the caller. -/
theorem write_true_with_zero_bytes :
    ∃ w₁ w₂ w₃, write Writer.init frameRgba pathSplash envOpen = some (true, w₁)
      ∧ write w₁ frameRgb pathSplash envOpen = some (false, w₂)
      ∧ supportedFormat frameRgbaNext.spec
      ∧ write w₂ frameRgbaNext pathSplash envOpen = some (true, w₃)
      ∧ w₃.writerInputSize = 0
      ∧ w₃.calls = w₂.calls ++ [WriterCall.push_data [] 0 2 1]
      ∧ w₃.writerBuffer.localpixels = some [1, 2, 3, 4, 5, 6, 7, 8]
      ∧ frameRgbaNext.localpixels = some [8, 7, 6, 5, 4, 3, 2, 1] :=
  ⟨_, _, _, rfl, rfl, Or.inl ⟨rfl, rfl⟩, rfl, by decide, by decide, by decide, rfl⟩

/-- C20 (the code departs from the claim). On the YUV string of the wire format with the tag
`I420`, delivered to a fresh reader, the text after `format=(fourcc)` is `I420` with no closing
parenthesis before it: the scan stores nothing, and the planar flag is the result of searching
`I420` in the local array as it was before the scan, whatever tag the string carries. With the
array holding no text the flag is false although the tag is `I420`; on the string with the tag
`YV12` and the array holding `I420` the flag is true. The other three fields are as claimed. -/
theorem updateDescriptor_wire_tag_not_scanned :
    regexMatchKey regFormatYUV capsI420Wire = some tagI420
    ∧ (∀ format0 : Str, ∃ ρ,
        updateDescriptor Reader.init
            { type_description := capsI420Wire, data := [], regexError := false,
              format0 := format0, now := 2 } = some (.proceed ρ)
          ∧ ρ.isYUV = true ∧ ρ.bpp = 12 ∧ ρ.channels = 3
          ∧ ρ.is420 = strstr format0 tagI420)
    ∧ (∃ ρ, updateDescriptor Reader.init (deliver capsI420Wire []) = some (.proceed ρ)
        ∧ ρ.is420 = false)
    ∧ (∃ ρ,
        updateDescriptor Reader.init
            { type_description := capsYV12Wire, data := [], regexError := false,
              format0 := tagI420, now := 2 } = some (.proceed ρ)
          ∧ ρ.is420 = true) := by
  refine ⟨by decide, ?_, ⟨_, rfl, by decide⟩, ⟨_, rfl, by decide⟩⟩
  intro format0
  have hd : cString capsI420Wire = capsI420Wire := by decide
  have hne : capsI420Wire ≠ Reader.init.inputDataType := by decide
  have h2 : regexMatchFamily regYUV capsI420Wire = true := by decide
  have hb : regexMatchKey regBpp capsI420Wire = none := by decide
  have hw : regexMatchKey regWidth capsI420Wire = none := by decide
  have hh : regexMatchKey regHeight capsI420Wire = none := by decide
  have hr : regexMatchKey regRed capsI420Wire = none := by decide
  have hl : regexMatchKey regBlue capsI420Wire = none := by decide
  obtain ⟨sf, hf, hf0⟩ : ∃ sf, regexMatchKey regFormatYUV capsI420Wire = some sf
      ∧ sscanfToken sf format0 = some format0 := ⟨_, rfl, rfl⟩
  cases hs : strstr format0 tagI420 <;>
    simp [updateDescriptor, Delivery.dataType, hd, hne, parseCaps, h2, scanBpp, scanWidth,
      scanHeight, scanRed, scanBlue, deriveChannels, hb, hw, hh, hr, hl, hf, hf0, hs,
      clearDescriptor]

/-- The tag is searched by containment in the scanned token: after `format=(fourcc))` the token
`NI420`, which is not the planar tag, raises the planar flag. -/
theorem updateDescriptor_tag_inside :
    ∃ ρ, updateDescriptor Reader.init (deliver capsTagInside []) = some (.proceed ρ)
      ∧ regexMatchKey regFormatYUV capsTagInside = some ")NI420".toList
      ∧ ρ.is420 = true :=
  ⟨_, rfl, by decide, by decide⟩

/-- Parsing of a YUV string. For a changed capability string of the YUV family without
`red_mask=(int)` key whose scanned bits per pixel are not 24, parsing leaves the YUV flag set,
12 bits per pixel and 3 channels. Without `format=(fourcc)` key the planar flag is false. When
the text after the last `format=(fourcc)` is a closing parenthesis followed by a token of 1 to
15 characters, the planar flag is true exactly when that token contains `I420`. -/
theorem parse_yuv_descriptor (ctx : Reader) (d : Delivery)
    (hne : d.dataType ≠ ctx.inputDataType) (hre : d.regexError = false)
    (hyuv : "video/x-raw-yuv".toList <+: d.dataType)
    (hred : regexMatchKey regRed d.dataType = none)
    (hbpp : ∀ sb, regexMatchKey regBpp d.dataType = some sb → sscanfInt sb ≠ some 24) :
    (∀ ρ, updateDescriptor ctx d = some (.proceed ρ) →
      ρ.isYUV = true ∧ ρ.bpp = 12 ∧ ρ.channels = 3)
    ∧ (regexMatchKey regFormatYUV d.dataType = none →
        ∃ ρ, updateDescriptor ctx d = some (.proceed ρ) ∧ ρ.is420 = false)
    ∧ (∀ rest tok, regexMatchKey regFormatYUV d.dataType = some (')' :: rest) →
        tok = (rest.dropWhile isSpace).takeWhile (fun c => !isSpace c) →
        tok ≠ [] → tok.length < 16 →
        ∃ ρ, updateDescriptor ctx d = some (.proceed ρ)
          ∧ (ρ.is420 = true ↔ "I420".toList <:+: tok)) := by
  have hfam : regexMatchFamily regYUV d.dataType = true :=
    (regexMatchFamily_eq_true_iff _ _).2 hyuv
  obtain ⟨hy, hb⟩ := scans_yuv (clearDescriptor { ctx with inputDataType := d.dataType })
    d.dataType hfam hred
  have h420 := (scans_flags (clearDescriptor { ctx with inputDataType := d.dataType })
    d.dataType).1
  have hb24 : (scanBlue (scanRed (scanHeight (scanWidth (scanBpp
      (clearDescriptor { ctx with inputDataType := d.dataType }) d.dataType) d.dataType)
      d.dataType) d.dataType) d.dataType).bpp ≠ 24 := by
    rw [hb]
    simp only [scanBpp]
    split
    · rename_i sb hsb
      have := hbpp sb hsb
      simp only [assignInt, clearDescriptor]
      split
      · rename_i v hv
        intro h24
        exact this (by rw [hv, h24])
      · decide
    · simp [clearDescriptor]
  have hupd : updateDescriptor ctx d
      = (match deriveChannels (scanBlue (scanRed (scanHeight (scanWidth (scanBpp
          (clearDescriptor { ctx with inputDataType := d.dataType }) d.dataType) d.dataType)
          d.dataType) d.dataType) d.dataType) d.dataType d.format0 with
        | some c => some (.proceed c)
        | none => none) := by
    simp only [updateDescriptor, ne_eq, hne, not_false_eq_true, if_true, hre,
      Bool.false_eq_true, if_false, parseCaps, hfam, Bool.or_true]
  generalize scanBlue (scanRed (scanHeight (scanWidth (scanBpp
      (clearDescriptor { ctx with inputDataType := d.dataType }) d.dataType) d.dataType)
      d.dataType) d.dataType) d.dataType = X at hy hb24 h420 hupd
  have hX0 : X.is420 = false := by
    rw [h420]; simp [clearDescriptor]
  refine ⟨?_, ?_, ?_⟩
  · intro ρ hρ
    rw [hupd] at hρ
    cases hdc : deriveChannels X d.dataType d.format0 with
    | none =>
      rw [hdc] at hρ
      cases hρ
    | some c =>
      rw [hdc] at hρ
      simp only [Option.some.injEq, Parsed.proceed.injEq] at hρ
      subst hρ
      exact deriveChannels_yuv hb24 hy hdc
  · intro hnone
    refine ⟨{ X with bpp := 12, channels := 3 }, ?_, hX0⟩
    rw [hupd]
    simp only [deriveChannels, hb24, if_false, hy, if_true, hnone]
  · intro rest tok hkey htok hne' hlen
    have hscan : sscanfToken (')' :: rest) d.format0 = some tok := by
      simp only [sscanfToken, ← htok]
      rw [if_neg (by simpa [List.isEmpty_iff] using hne'), if_pos hlen]
    by_cases hin : strstr tok tagI420 = true
    · refine ⟨{ X with bpp := 12, channels := 3, is420 := true }, ?_, ?_⟩
      · rw [hupd]
        simp only [deriveChannels, hb24, if_false, hy, if_true, hkey, hscan, hin]
      · simp only [true_iff]
        exact (strstr_iff _ _).1 hin
    · refine ⟨{ X with bpp := 12, channels := 3 }, ?_, ?_⟩
      · rw [hupd]
        simp [deriveChannels, hb24, hy, hkey, hscan, hin]
      · simp only [hX0, Bool.false_eq_true, false_iff]
        exact fun h => hin ((strstr_iff _ _).2 h)

theorem parse_yuv_descriptor_witness :
    (∀ ρ, updateDescriptor Reader.init (deliver capsI420 frameI420) = some (.proceed ρ) →
      ρ.isYUV = true ∧ ρ.bpp = 12 ∧ ρ.channels = 3)
    ∧ (regexMatchKey regFormatYUV (deliver capsI420 frameI420).dataType = none →
        ∃ ρ, updateDescriptor Reader.init (deliver capsI420 frameI420) = some (.proceed ρ)
          ∧ ρ.is420 = false)
    ∧ (∀ rest tok,
        regexMatchKey regFormatYUV (deliver capsI420 frameI420).dataType = some (')' :: rest) →
        tok = (rest.dropWhile isSpace).takeWhile (fun c => !isSpace c) →
        tok ≠ [] → tok.length < 16 →
        ∃ ρ, updateDescriptor Reader.init (deliver capsI420 frameI420) = some (.proceed ρ)
          ∧ (ρ.is420 = true ↔ "I420".toList <:+: tok)) :=
  parse_yuv_descriptor Reader.init (deliver capsI420 frameI420) (by decide) rfl
    (by rw [← List.isPrefixOf_iff_prefix]; decide) (by decide)
    (fun sb h => by
      have h2 : regexMatchKey regBpp (deliver capsI420 frameI420).dataType = none := by decide
      rw [h2] at h
      cases h)

/-- C23. For all bytes Y, U, V every intermediate of the conversion lies between -8460032 and
18120148: the luma term, the red, green and blue parts, the two products of the green part and
the three sums. Each therefore equals its reduction to the signed 32-bit range. -/
theorem conversion_intermediates_in_range (Y U V : Byte) :
    (∀ z ∈ [(Y.val : Int) * coefY,
            coefVtoR * ((V.val : Int) - 128),
            -coefUtoG * ((U.val : Int) - 128),
            coefVtoG * ((V.val : Int) - 128),
            -coefUtoG * ((U.val : Int) - 128) - coefVtoG * ((V.val : Int) - 128),
            coefUtoB * ((U.val : Int) - 128),
            (Y.val : Int) * coefY + coefVtoR * ((V.val : Int) - 128),
            (Y.val : Int) * coefY
              + (-coefUtoG * ((U.val : Int) - 128) - coefVtoG * ((V.val : Int) - 128)),
            (Y.val : Int) * coefY + coefUtoB * ((U.val : Int) - 128)],
        -8460032 ≤ z ∧ z ≤ 18120148 ∧ -2147483648 ≤ z ∧ z ≤ 2147483647 ∧ wrap32 z = z)
    ∧ (∃ Y₀ U₀ : Byte, (Y₀.val : Int) * coefY + coefUtoB * ((U₀.val : Int) - 128) = 18120148)
    ∧ (∃ U₀ : Byte, coefUtoB * ((U₀.val : Int) - 128) = -8460032) := by
  have hY := Y.isLt
  have hU := U.isLt
  have hV := V.isLt
  refine ⟨?_, ⟨255, 255, by decide⟩, ⟨0, by decide⟩⟩
  intro z hz
  simp only [List.mem_cons, List.mem_singleton, List.not_mem_nil, or_false, coefY, coefVtoR,
    coefUtoG, coefVtoG, coefUtoB] at hz
  simp only [wrap32]
  rcases hz with rfl | rfl | rfl | rfl | rfl | rfl | rfl | rfl | rfl <;> omega

/-- C22. After the derivation from any changed capability string the channel count is 0 or 3.
Hence in every reachable reader state, and for the descriptor that any delivery hands to the
second block, the channel count is 0 or 3 and never 4; a usable descriptor is packed with three
channels or planar, and the last branch of the callback (unsupported layout) is not taken. -/
theorem reachable_layout_supported (ctx : Reader) (hr : Reachable ctx) (d : Delivery)
    (ρ : Reader) (hρ : updateDescriptor ctx d = some (.proceed ρ)) :
    (∀ (c : Reader) (s f : Str) (ρ' : Reader), parseCaps (clearDescriptor c) s f = some ρ' →
      ρ'.channels = 0 ∨ ρ'.channels = 3)
    ∧ (ctx.channels = 0 ∨ ctx.channels = 3)
    ∧ (ρ.channels = 0 ∨ ρ.channels = 3) ∧ ρ.channels ≠ 4
    ∧ (ρ.usable = true → (ρ.is420 = false ∧ ρ.channels = 3) ∨ ρ.is420 = true)
    ∧ unsupportedLayout ρ = false := by
  have hch : ρ.channels = 0 ∨ ρ.channels = 3 := by
    rcases updateDescriptor_cases ctx d with ⟨_, hx⟩ | ⟨_, _, hx⟩ | ⟨_, _, ⟨_, hx⟩ | ⟨σ, hp, hx⟩⟩
    · rw [hx] at hρ
      simp only [Option.some.injEq, Parsed.proceed.injEq] at hρ
      subst hρ
      exact reachable_channels hr
    · rw [hx] at hρ
      simp at hρ
    · rw [hx] at hρ
      cases hρ
    · rw [hx] at hρ
      simp only [Option.some.injEq, Parsed.proceed.injEq] at hρ
      subst hρ
      exact parseCaps_channels hp
  have hus : ρ.usable = true → ρ.channels = 3 := by
    intro hu
    rcases hch with h0 | h3
    · simp [Reader.usable, h0] at hu
    · exact h3
  refine ⟨fun c s f ρ' h => parseCaps_channels h, reachable_channels hr, hch, ?_, ?_, ?_⟩
  · rcases hch with h | h <;> rw [h] <;> decide
  · intro hu
    cases h4 : ρ.is420
    · exact Or.inl ⟨rfl, hus hu⟩
    · exact Or.inr rfl
  · cases hu : ρ.usable
    · simp [unsupportedLayout, hu]
    · cases h4 : ρ.is420 <;> simp [unsupportedLayout, hu, h4, hus hu]

theorem reachable_layout_supported_witness :
    ∃ ρ, updateDescriptor Reader.init (deliver capsPacked [1, 2, 3, 4, 5, 6])
        = some (.proceed ρ)
      ∧ ((∀ (c : Reader) (s f : Str) (ρ' : Reader),
            parseCaps (clearDescriptor c) s f = some ρ' → ρ'.channels = 0 ∨ ρ'.channels = 3)
        ∧ (Reader.init.channels = 0 ∨ Reader.init.channels = 3)
        ∧ (ρ.channels = 0 ∨ ρ.channels = 3) ∧ ρ.channels ≠ 4
        ∧ (ρ.usable = true → (ρ.is420 = false ∧ ρ.channels = 3) ∨ ρ.is420 = true)
        ∧ unsupportedLayout ρ = false) :=
  ⟨_, rfl,
    reachable_layout_supported Reader.init Reachable.init (deliver capsPacked [1, 2, 3, 4, 5, 6])
      _ rfl⟩

/-- C21 (as stated, refuted). A fresh reader completes a packed 2 x 1 frame; the next delivery
has the same capability string, hence the same triple as the frame just completed, and yet
resets the producer-side buffer: after the exchange that buffer is the default-constructed one
that was exposed before. -/
theorem second_frame_resets_again :
    ∃ ctx₁ ρ₂, onData Reader.init (deliver capsPacked [1, 2, 3, 4, 5, 6]) = some ctx₁
      ∧ completesFrame Reader.init (deliver capsPacked [1, 2, 3, 4, 5, 6]) = true
      ∧ updateDescriptor ctx₁ (deliver capsPacked [6, 5, 4, 3, 2, 1]) = some (.proceed ρ₂)
      ∧ ρ₂.triple = ctx₁.triple
      ∧ resetsBuffer ctx₁ (deliver capsPacked [6, 5, 4, 3, 2, 1]) = true :=
  ⟨_, _, rfl, by decide, rfl, by decide, by decide⟩

/-- C21 (amended). A delivery resets the producer-side buffer exactly when its descriptor is
usable and its triple differs from the geometry of the producer-side buffer. A delivery that
completes a frame exchanges the buffers, so after two completed frames the producer-side buffer
is the one filled by the first of them: a third delivery whose triple is that of the first
frame makes no reset and keeps the producer-side buffer in place. -/
theorem buffer_reset_rule (ctx ctx₁ ctx₂ ρ₃ : Reader) (d₁ d₂ d₃ : Delivery)
    (h₁ : onData ctx d₁ = some ctx₁) (c₁ : completesFrame ctx d₁ = true)
    (h₂ : onData ctx₁ d₂ = some ctx₂) (c₂ : completesFrame ctx₁ d₂ = true)
    (h₃ : updateDescriptor ctx₂ d₃ = some (.proceed ρ₃)) (t₃ : ρ₃.triple = ctx₁.triple) :
    (∀ (c : Reader) (d : Delivery), resetsBuffer c d = true ↔
      ∃ ρ, updateDescriptor c d = some (.proceed ρ) ∧ ρ.usable = true
        ∧ ρ.triple ≠ c.readerBuffer.triple)
    ∧ ctx₂.readerBuffer = ctx₁.bufferImage ∧ ctx₁.bufferImage.triple = ctx₁.triple
    ∧ resetsBuffer ctx₂ d₃ = false
    ∧ resizeReaderBuffer ρ₃ = ρ₃ ∧ ρ₃.readerBuffer = ctx₂.readerBuffer := by
  have rule : ∀ (c : Reader) (d : Delivery), resetsBuffer c d = true ↔
      ∃ ρ, updateDescriptor c d = some (.proceed ρ) ∧ ρ.usable = true
        ∧ ρ.triple ≠ c.readerBuffer.triple := by
    intro c d
    have geo : ∀ ρ : Reader, ρ.readerBuffer = c.readerBuffer →
        ((ρ.readerBuffer.spec.width ≠ ρ.width ∨ ρ.readerBuffer.spec.height ≠ ρ.height
          ∨ ρ.readerBuffer.spec.nchannels ≠ ρ.channels) ↔ ρ.triple ≠ c.readerBuffer.triple) := by
      intro ρ hb
      rw [← hb]
      simp only [Reader.triple, ImageBuf.triple, ne_eq, Prod.mk.injEq, not_and]
      constructor
      · rintro (h | h | h) h1 h2 h3
        · exact h h1.symm
        · exact h h2.symm
        · exact h h3.symm
      · intro h
        by_cases hw : ρ.readerBuffer.spec.width = ρ.width
        · by_cases hh : ρ.readerBuffer.spec.height = ρ.height
          · exact Or.inr (Or.inr (fun hc => h hw.symm hh.symm hc.symm))
          · exact Or.inr (Or.inl hh)
        · exact Or.inl hw
    unfold resetsBuffer
    constructor
    · intro h
      split at h
      · rename_i ρ hρ
        simp only [Bool.and_eq_true, decide_eq_true_eq] at h
        have hb := (updateDescriptor_proceed hρ).1
        simp only [Reader.frameSide, Prod.mk.injEq] at hb
        exact ⟨ρ, hρ, h.1, (geo ρ hb.1).1 h.2⟩
      · cases h
    · rintro ⟨ρ, hρ, hu, ht⟩
      have hb := (updateDescriptor_proceed hρ).1
      simp only [Reader.frameSide, Prod.mk.injEq] at hb
      rw [hρ]
      simp only [Bool.and_eq_true, decide_eq_true_eq]
      exact ⟨hu, (geo ρ hb.1).2 ht⟩
  obtain ⟨-, e₁⟩ := completesFrame_exchange h₁ c₁
  obtain ⟨x₂, -⟩ := completesFrame_exchange h₂ c₂
  have hb₃ := (updateDescriptor_proceed h₃).1
  simp only [Reader.frameSide, Prod.mk.injEq] at hb₃
  have hsame : ρ₃.triple = ctx₂.readerBuffer.triple := by
    rw [t₃, x₂, e₁]
  refine ⟨rule, x₂, e₁, ?_, ?_, hb₃.1⟩
  · cases hr : resetsBuffer ctx₂ d₃
    · rfl
    · obtain ⟨ρ, hρ, -, hne⟩ := (rule ctx₂ d₃).1 hr
      rw [h₃] at hρ
      simp only [Option.some.injEq, Parsed.proceed.injEq] at hρ
      subst hρ
      exact absurd hsame hne
  · have hgeo : ρ₃.readerBuffer.triple = ρ₃.triple := by
      rw [hb₃.1, hsame]
    simp only [ImageBuf.triple, Reader.triple, Prod.mk.injEq] at hgeo
    unfold resizeReaderBuffer
    rw [if_neg (by simp [hgeo.1, hgeo.2.1, hgeo.2.2])]

theorem buffer_reset_rule_witness :
    ∃ ctx₁ ctx₂ ρ₃, onData Reader.init (deliver capsPacked [1, 2, 3, 4, 5, 6]) = some ctx₁
      ∧ onData ctx₁ (deliver capsPacked [6, 5, 4, 3, 2, 1]) = some ctx₂
      ∧ updateDescriptor ctx₂ (deliver capsPacked [7, 7, 7, 7, 7, 7]) = some (.proceed ρ₃)
      ∧ ((∀ (c : Reader) (d : Delivery), resetsBuffer c d = true ↔
            ∃ ρ, updateDescriptor c d = some (.proceed ρ) ∧ ρ.usable = true
              ∧ ρ.triple ≠ c.readerBuffer.triple)
        ∧ ctx₂.readerBuffer = ctx₁.bufferImage ∧ ctx₁.bufferImage.triple = ctx₁.triple
        ∧ resetsBuffer ctx₂ (deliver capsPacked [7, 7, 7, 7, 7, 7]) = false
        ∧ resizeReaderBuffer ρ₃ = ρ₃ ∧ ρ₃.readerBuffer = ctx₂.readerBuffer) :=
  ⟨_, _, _, rfl, rfl, rfl,
    buffer_reset_rule Reader.init _ _ _ (deliver capsPacked [1, 2, 3, 4, 5, 6])
      (deliver capsPacked [6, 5, 4, 3, 2, 1]) (deliver capsPacked [7, 7, 7, 7, 7, 7])
      rfl (by decide) rfl (by decide) rfl (by decide)⟩

end Splash
